import Mathlib

/-!
# chessterm client: selection gesture, orientation mapping, action negotiation, transport loops

A shallow embedding of `src/pkg/client.go` (the `Client` of the terminal chess
client) together with the properties its specification states about it.

Conventions of the embedding.

* The rules engine (`github.com/notnil/chess`) and the text-UI toolkit are
  collaborators.  A `Game` is the pair of answers the client asks the engine
  for; `Square.String` follows the engine's `a1 = 0` convention.
* `cl.Out <- m` appends `m` to the `Out` list.  The list is the sequence of
  messages handed to the channel; the bound of the channel only delays a
  sender, it never drops or reorders a message.
* A run-time fault (a nil connection, a square outside the board handed to
  `Square.String`) is the result `none`.
* A button callback starts `go cl.HandleAction(a)`; the model runs the call in place,
  one entry point at a time.
* The JSON library is a collaborator.  `Encode` on a payload is the parameter `marshal`;
  `Encode` on the envelope is the object `json.Marshal` writes for the struct; a line
  read from the connection is described by what `Decode` makes of it (`Line`).
* The widgets the model keeps are the two option buttons (their labels) and the
  status line.  The board table is a rendering of `Game`, `Role` and
  `highlights`; the chat view, the menu view and the layout root are written
  only by reader cases that touch nothing else, and are not kept.
-/

namespace Chessterm

/-! ## Orientation mapping -/

/-- The type `chess.Square` is an `int8`; squares are numbered from `a1 = 0` to `h8 = 63`. -/
abbrev Square := Int

/-- Conversion of a Go `int` to `int8` (two's complement truncation). -/
def wrapInt8 (x : Int) : Int := (x + 128) % 256 - 128

/-- Modelled from the spec: the declaration of `PlayerRole` and of its constants
`White` and `Black` is not among the sources.  The spec gives the role as one of
White and Black; `other` stands for every further value of the Go type (such as
the value of the field before any connect message, if that is neither). -/
inductive PlayerRole where
  | White
  | Black
  | other (tag : Nat)
  deriving DecidableEq, Repr

/-- The constant `numrows` of `client.go`. -/
def numrows : Int := 8

/-- The constant `numcols` of `client.go`. -/
def numcols : Int := 8

/-- The method `posToSquare` of `client.go:540`.  It reads only the `Role` field of the client. -/
def posToSquare (Role : PlayerRole) (row col : Int) : Square :=
  let row := if Role ≠ PlayerRole.Black then numrows - row - 1 else row
  let col := col - 1
  wrapInt8 (row * 8 + col)

/-! ## Rules engine (collaborator) -/

/-- The constant `fileChars` of the engine. -/
def fileChars : List Char := ['a', 'b', 'c', 'd', 'e', 'f', 'g', 'h']

/-- The constant `rankChars` of the engine. -/
def rankChars : List Char := ['1', '2', '3', '4', '5', '6', '7', '8']

/-- The engine's `Square.File`: `File(int(sq) % 8)`, with Go's truncating remainder. -/
def Square.File (sq : Square) : Int := Int.tmod sq 8

/-- The engine's `Square.Rank`: `Rank(int(sq) / 8)`, with Go's truncating division. -/
def Square.Rank (sq : Square) : Int := Int.tdiv sq 8

/-- The engine's `File.String`: the slice `fileChars[f : f+1]`, a fault outside `0..7`. -/
def File.String (f : Int) : Option String :=
  if 0 ≤ f then (fileChars.get? f.toNat).map (fun c => String.mk [c]) else none

/-- The engine's `Rank.String`: the slice `rankChars[r : r+1]`, a fault outside `0..7`. -/
def Rank.String (r : Int) : Option String :=
  if 0 ≤ r then (rankChars.get? r.toNat).map (fun c => String.mk [c]) else none

/-- The engine's `Square.String`: file letter followed by rank digit. -/
def Square.String (sq : Square) : Option String :=
  match File.String (Square.File sq), Rank.String (Square.Rank sq) with
  | some f, some r => some (f ++ r)
  | _, _ => none

/-- The engine's `PieceType`. -/
inductive PieceType where
  | NoPieceType
  | King
  | Queen
  | Rook
  | Bishop
  | Knight
  | Pawn
  deriving DecidableEq, Repr

/-- What the client asks of a `*chess.Game` (created with UCI notation). -/
structure Game where
  /-- The value `g.Position().Board().Piece(sq).Type()`. -/
  PieceTypeAt : Square → PieceType
  /-- The strings `m.String()` of the moves of `g.ValidMoves()`, in the engine's order. -/
  ValidMoves : List String

/-- Byte `i` of a Go string.  The strings indexed in the client are ASCII, so bytes are characters. -/
def byteAt (s : String) (i : Nat) : Option Char := s.data.get? i

/-! ## Messages -/

/-- Modelled from the spec: the declaration of the string type `Action` and of its
constants is not among the sources.  The spec lists the action kinds (the draw, resign
and rematch prompts, offers, acceptances and rejections, and the terminal outcomes Win,
Lose and the draw result); the constants carry the names `client.go` uses, with
`ActionResignYes` and `ActionResignNo` the resign confirmation and cancellation,
`ActionNewGame...` the rematch actions and `ActionDraw` the draw result.  The fifteen
constants label the cases of the one `switch` of `HandleAction`, so they are pairwise
different strings; `other` stands for every further string. -/
inductive Action where
  | ActionResignPrompt
  | ActionResignYes
  | ActionResignNo
  | ActionDrawOffer
  | ActionDrawPrompt
  | ActionDrawAccept
  | ActionDrawReject
  | ActionNewGameOffer
  | ActionNewGamePrompt
  | ActionNewGameAccept
  | ActionNewGameReject
  | ActionWin
  | ActionLose
  | ActionDraw
  | ActionExit
  | other (tag : Nat)
  deriving DecidableEq, Repr

/-- Modelled from the spec: the lobby command constants used by `client.go` are not
among the sources; `other` stands for every further value. -/
inductive Command where
  | CommandLs
  | CommandJoin
  | CommandCreate
  | CommandCallme
  | CommandMessage
  | other (tag : Nat)
  deriving DecidableEq, Repr

/-- The payload `MessageMove` of `messages.go:68`. -/
structure MessageMove where
  Move : String
  Msg : String
  deriving DecidableEq, Repr

/-- The payload `MessageGame` of `messages.go:78`. -/
structure MessageGame where
  Fen : String
  IsTurn : Bool
  deriving DecidableEq, Repr

/-- The payload `MessageConnect`, with the fields `client.go:470` reads from it. -/
structure MessageConnect where
  Fen : String
  IsTurn : Bool
  Role : PlayerRole
  deriving DecidableEq, Repr

/-- The payload `MessageGameChat` of `messages.go:111`; `Time` is kept as a number. -/
structure MessageGameChat where
  Message : String
  Name : String
  Time : Int
  deriving DecidableEq, Repr

/-- Modelled from the spec: the payload `MessageGameAction` (an action and a detail
text) is declared in a file that is not among the sources; the field names are those
`client.go` uses. -/
structure MessageGameAction where
  Action : Action
  Message : String
  deriving DecidableEq, Repr

/-- The payload `MessageGameCommand`, with the fields `client.go:234` writes. -/
structure MessageGameCommand where
  Command : Command
  Argument : String
  deriving DecidableEq, Repr

/-- The payloads of the interface `MessageInterface` (`messages.go:9`), the element type
of the `Out` channel: the four the client sends and the two it only receives. -/
inductive MessageInterface where
  | Move (m : MessageMove)
  | GameAction (m : MessageGameAction)
  | GameChat (m : MessageGameChat)
  | GameCommand (m : MessageGameCommand)
  | Game (m : MessageGame)
  | Connect (m : MessageConnect)
  deriving DecidableEq, Repr

/-- One frame as the reader loop sees it after decoding: the message type selected by
`MsgType` together with the payload decoded from `Data`.  `unknown` is a frame whose
`MsgType` is none of the six the reader dispatches on. -/
inductive Received where
  | Game (m : MessageGame)
  | Connect (m : MessageConnect)
  | GameChat (m : MessageGameChat)
  | GameStatus (m : MessageGameChat)
  | GameAction (m : MessageGameAction)
  | GameCommand (m : MessageGameCommand)
  | unknown (msgType : Nat)
  deriving DecidableEq, Repr

/-! ## Client state -/

/-- The text of the status line.  The string value of an `Action` constant is not
known, so a text built from one keeps the action. -/
inductive StatusText where
  | text (s : String)
  | action (a : Action)
  | actionBy (a : Action) (detail : String)
  deriving DecidableEq, Repr

/-- The struct `Client` of `client.go:15`. -/
structure Client where
  /-- The current game of the rules engine. -/
  Game : Game
  /-- The connection: `none` is nil, `some k` a connection that was closed `k` times. -/
  Conn : Option Nat
  /-- The messages sent on the `Out` channel, oldest first. -/
  Out : List MessageInterface
  selecting : Bool
  lastSelection : Square
  /-- The keys of the `highlights` map (only `true` is ever stored). -/
  highlights : Finset Square
  Role : PlayerRole
  /-- The label of the first option button. -/
  optionBtn1 : Action
  /-- The label of the second option button. -/
  optionBtn2 : Action
  /-- The text of `StatusTextView`. -/
  StatusTextView : StatusText
  /-- The number of `App.Stop()` calls. -/
  appStops : Nat

/-- The function `NewClient` of `client.go:55` followed by `InitGUI`.  `newGame` is the
engine's `chess.NewGame(...)`, `zeroRole` the zero value of `PlayerRole`. -/
def NewClient (newGame : Game) (zeroRole : PlayerRole) : Client :=
  { Game := newGame
    Conn := none
    Out := []
    selecting := false
    lastSelection := 0
    highlights := ∅
    Role := zeroRole
    optionBtn1 := Action.ActionDrawPrompt
    optionBtn2 := Action.ActionResignPrompt
    StatusTextView := StatusText.text ""
    appStops := 0 }

/-- The method `Disconnect` of `client.go:73`: stop the UI, close the connection.
Closing a nil connection is a fault. -/
def Client.Disconnect (cl : Client) : Option Client :=
  match cl.Conn with
  | none => none
  | some k => some { cl with appStops := cl.appStops + 1, Conn := some (k + 1) }

/-- The method `Connect` of `client.go:420`: the connection is kept when the dial
succeeds, and nothing changes when it fails. -/
def Client.Connect (dialed : Bool) (cl : Client) : Client :=
  if dialed then { cl with Conn := some 0 } else cl

/-! ## Move selection -/

/-- The candidate move string of the destination branch (`client.go:330` to `336`):
the two coordinates, with `q` appended by the auto-promotion test. -/
def candidateMove (g : Game) (lastSelection sq : Square) : Option String :=
  match Square.String lastSelection, Square.String sq with
  | some a, some d =>
    let move := a ++ d
    if g.PieceTypeAt lastSelection = PieceType.Pawn ∧
        ((byteAt move 1 = some '7' ∧ byteAt move 3 = some '8') ∨
          (byteAt move 1 = some '2' ∧ byteAt move 3 = some '1')) then
      some (move ++ "q")
    else
      some move
  | _, _ => none

/-- The loop of `client.go:337`: `isValid` becomes true when a valid move prints as `move`. -/
def isValidMove (validMoves : List String) (move : String) : Bool :=
  validMoves.foldl (fun isValid validMove => if validMove = move then true else isValid) false

/-- The callback given to `SetSelectedFunc` in `initBoard` (`client.go:320`). -/
def SetSelectedFunc (row col : Int) (cl : Client) : Option Client :=
  let sq := posToSquare cl.Role row col
  if cl.selecting then
    if sq = cl.lastSelection then
      some { cl with
        selecting := false
        lastSelection := 0
        highlights := cl.highlights.erase sq }
    else
      match candidateMove cl.Game cl.lastSelection sq with
      | none => none
      | some move =>
        if !isValidMove cl.Game.ValidMoves move then
          some { cl with
            highlights := (cl.highlights.erase sq).erase cl.lastSelection
            selecting := false
            lastSelection := 0 }
        else
          some { cl with
            Out := cl.Out ++ [MessageInterface.Move { Move := move, Msg := "Hi" }]
            highlights := cl.highlights.erase cl.lastSelection
            lastSelection := 0
            selecting := false }
  else
    some { cl with
      highlights := insert sq cl.highlights
      selecting := true
      lastSelection := sq }

/-! ## Action negotiation -/

/-- The statement `cl.Out <- m`. -/
def Client.send (cl : Client) (m : MessageInterface) : Client :=
  { cl with Out := cl.Out ++ [m] }

/-- The two `SetLabel` calls on the option buttons. -/
def Client.setLabels (cl : Client) (label1 label2 : Action) : Client :=
  { cl with optionBtn1 := label1, optionBtn2 := label2 }

/-- The method `HandleAction` of `client.go:79`. -/
def HandleAction (action : Action) (cl : Client) : Option Client :=
  match action with
  -- Resign
  | Action.ActionResignPrompt =>
    some (cl.setLabels Action.ActionResignYes Action.ActionResignNo)
  | Action.ActionResignYes =>
    some (cl.send (MessageInterface.GameAction { Action := action, Message := "" }))
  | Action.ActionResignNo =>
    some (cl.setLabels Action.ActionDrawPrompt Action.ActionResignPrompt)
  -- Draw
  | Action.ActionDrawOffer =>
    some (cl.setLabels Action.ActionDrawAccept Action.ActionDrawReject)
  | Action.ActionDrawPrompt =>
    some { cl.send (MessageInterface.GameAction { Action := Action.ActionDrawOffer, Message := "" }) with
      StatusTextView := StatusText.text "Draw offer sent!" }
  | Action.ActionDrawAccept =>
    some ((cl.send (MessageInterface.GameAction { Action := action, Message := "" })).setLabels
      Action.ActionDrawPrompt Action.ActionResignPrompt)
  | Action.ActionDrawReject =>
    some ((cl.send (MessageInterface.GameAction { Action := action, Message := "" })).setLabels
      Action.ActionDrawPrompt Action.ActionResignPrompt)
  -- New Game
  | Action.ActionNewGameOffer =>
    some (cl.setLabels Action.ActionNewGameAccept Action.ActionNewGameReject)
  | Action.ActionNewGamePrompt =>
    some { cl.send (MessageInterface.GameAction { Action := Action.ActionNewGameOffer, Message := "" }) with
      StatusTextView := StatusText.text "Invitation sent!" }
  | Action.ActionNewGameAccept =>
    some ((cl.send (MessageInterface.GameAction { Action := action, Message := "" })).setLabels
      Action.ActionDrawPrompt Action.ActionResignPrompt)
  | Action.ActionNewGameReject =>
    some ((cl.send (MessageInterface.GameAction { Action := action, Message := "" })).setLabels
      Action.ActionNewGamePrompt Action.ActionExit)
  -- Result
  | Action.ActionWin | Action.ActionLose | Action.ActionDraw =>
    some (cl.setLabels Action.ActionNewGamePrompt Action.ActionExit)
  | Action.ActionExit => cl.Disconnect
  | Action.other _ => some cl

/-- The callback of the first option button (`client.go:153`): dispatch on its label. -/
def optionBtn1Selected (cl : Client) : Option Client :=
  match cl.optionBtn1 with
  | Action.ActionDrawPrompt => HandleAction Action.ActionDrawPrompt cl
  | Action.ActionResignYes => HandleAction Action.ActionResignYes cl
  | Action.ActionDrawAccept => HandleAction Action.ActionDrawAccept cl
  | Action.ActionNewGamePrompt => HandleAction Action.ActionNewGamePrompt cl
  | Action.ActionNewGameAccept => HandleAction Action.ActionNewGameAccept cl
  | _ => some cl

/-- The callback of the second option button (`client.go:168`): dispatch on its label. -/
def optionBtn2Selected (cl : Client) : Option Client :=
  match cl.optionBtn2 with
  | Action.ActionResignPrompt => HandleAction Action.ActionResignPrompt cl
  | Action.ActionResignNo => HandleAction Action.ActionResignNo cl
  | Action.ActionDrawReject => HandleAction Action.ActionDrawReject cl
  | Action.ActionExit => HandleAction Action.ActionExit cl
  | Action.ActionNewGameReject => HandleAction Action.ActionNewGameReject cl
  | _ => some cl

/-! ## Reader dispatch -/

/-- The status text of a turn flag (`client.go:461`). -/
def turnStatus (isTurn : Bool) : StatusText :=
  if isTurn then StatusText.text "Your turn!" else StatusText.text "Opponent turn!"

/-- The body of the reader loop of `HandleRead` after the frame is decoded: the
`switch` on `MsgType` of `client.go:456`.  `GameFromFEN` is the helper of that name,
which builds the engine's game from a FEN text and is not among the sources. -/
def HandleReadDispatch (GameFromFEN : String → Game) (m : Received) (cl : Client) :
    Option Client :=
  match m with
  | Received.Game message =>
    some ({ cl with
      Game := GameFromFEN message.Fen
      StatusTextView := turnStatus message.IsTurn }.setLabels
        Action.ActionDrawPrompt Action.ActionResignPrompt)
  | Received.Connect message =>
    some { cl with
      Game := GameFromFEN message.Fen
      Role := message.Role
      StatusTextView := turnStatus message.IsTurn }
  | Received.GameChat _ => some cl
  | Received.GameStatus message =>
    some { cl with StatusTextView := StatusText.text message.Message }
  | Received.GameAction message =>
    match message.Action with
    | Action.ActionWin | Action.ActionLose | Action.ActionDraw =>
      let status :=
        if message.Message ≠ "" then StatusText.actionBy message.Action message.Message
        else StatusText.action message.Action
      HandleAction message.Action { cl with StatusTextView := status }
    | Action.ActionDrawOffer | Action.ActionNewGameOffer =>
      HandleAction message.Action cl
    | Action.ActionNewGameAccept =>
      HandleAction Action.ActionDraw cl
    | _ => some cl
  | Received.GameCommand _ => some cl
  | Received.unknown _ => some cl

/-! ## Runs -/

/-- The entry points into the client: the connection is dialed, a board cell is
selected, an option button is clicked, the reader loop handles one frame. -/
inductive Event where
  | connect (dialed : Bool)
  | select (row col : Int)
  | button1
  | button2
  | receive (m : Received)
  deriving DecidableEq, Repr

/-- One event applied to the client. -/
def step (GameFromFEN : String → Game) (e : Event) (cl : Client) : Option Client :=
  match e with
  | Event.connect dialed => some (cl.Connect dialed)
  | Event.select row col => SetSelectedFunc row col cl
  | Event.button1 => optionBtn1Selected cl
  | Event.button2 => optionBtn2Selected cl
  | Event.receive m => HandleReadDispatch GameFromFEN m cl

/-- A sequence of events applied in order; a fault ends the run. -/
def run (GameFromFEN : String → Game) : List Event → Client → Option Client
  | [], cl => some cl
  | e :: es, cl =>
    match step GameFromFEN e cl with
    | none => none
    | some cl1 => run GameFromFEN es cl1

/-! ## Wire format and writer loop -/

/-- The type `MessageType` of `messages.go:12`, an `int`. -/
abbrev MessageType := Int

/-- The constant `TypeMessageGame` (`iota` 0). -/
def TypeMessageGame : MessageType := 0

/-- The constant `TypeMessageMove` (`iota` 1). -/
def TypeMessageMove : MessageType := 1

/-- The constant `TypeMessageTransport` (`iota` 2). -/
def TypeMessageTransport : MessageType := 2

/-- The constant `TypeMessageConnect` (`iota` 3). -/
def TypeMessageConnect : MessageType := 3

/-- The constant `TypeMessageGameChat` (`iota` 4). -/
def TypeMessageGameChat : MessageType := 4

/-- The message type constants that `client.go` uses and `messages.go` does not
declare, taken as a parameter. -/
structure NewerTypes where
  TypeMessageGameStatus : MessageType
  TypeMessageGameAction : MessageType
  TypeMessageGameCommand : MessageType
  deriving DecidableEq, Repr

/-- A byte sequence (`[]byte`, `json.RawMessage`); every element is below 256. -/
abbrev Bytes := List Nat

/-- The bytes of an ASCII text. -/
def ascii (s : String) : Bytes := s.toList.map Char.toNat

/-- The line terminator, the byte of the Go character constant for a new line. -/
def newline : Nat := 10

/-- The struct `MessageTransport` of `messages.go:57`. -/
structure MessageTransport where
  MsgType : MessageType
  Data : Bytes
  PlayerId : Int
  deriving DecidableEq, Repr

/-- The method `MessageTransport.Type` of `messages.go:63`. -/
def MessageTransport.Type (_m : MessageTransport) : MessageType := TypeMessageTransport

/-- The method `MessageMove.Type` of `messages.go:73`. -/
def MessageMove.Type (_m : MessageMove) : MessageType := TypeMessageMove

/-- The method `MessageGame.Type` of `messages.go:83`. -/
def MessageGame.Type (_m : MessageGame) : MessageType := TypeMessageGame

/-- The method `MessageConnect.Type` of `messages.go:94`. -/
def MessageConnect.Type (_m : MessageConnect) : MessageType := TypeMessageConnect

/-- The method `MessageGameChat.Type` of `messages.go:117`. -/
def MessageGameChat.Type (_m : MessageGameChat) : MessageType := TypeMessageGameChat

/-- The call `command.Type()` on a value of the interface.  The methods of the game
action and lobby command payloads are not among the sources; they return the constants
of `NewerTypes` named after them. -/
def MessageInterface.Type (T : NewerTypes) : MessageInterface → MessageType
  | MessageInterface.Move m => m.Type
  | MessageInterface.GameAction _ => T.TypeMessageGameAction
  | MessageInterface.GameChat m => m.Type
  | MessageInterface.GameCommand _ => T.TypeMessageGameCommand
  | MessageInterface.Game m => m.Type
  | MessageInterface.Connect m => m.Type

/-- The text `json.Marshal` writes for a Go `int`: its decimal digits. -/
def intJSON (n : Int) : Bytes := ascii (toString n)

/-- The function `Encode` of `messages.go:39` on a `MessageTransport`: the JSON object
`json.Marshal` writes, with the fields in the order of the struct.  `Data` is a
`json.RawMessage`, which is copied as it is (and written as `null` when it is nil). -/
def EncodeTransport (t : MessageTransport) : Bytes :=
  ascii "\x7b\"MsgType\":" ++ intJSON t.MsgType ++
    ascii ",\"Data\":" ++ (if t.Data = [] then ascii "null" else t.Data) ++
    ascii ",\"PlayerId\":" ++ intJSON t.PlayerId ++ ascii "\x7d"

/-- The envelope `HandleWrite` builds for a payload (`client.go:433` and `434`).
`marshal` is `Encode` on the payload, the text `json.Marshal` writes for it. -/
def envelope (T : NewerTypes) (marshal : MessageInterface → Bytes)
    (command : MessageInterface) : MessageTransport :=
  { MsgType := command.Type T, Data := marshal command, PlayerId := 0 }

/-- The terminator check of `client.go:436`: `b[len(b)-1]` is a fault on an empty `b`;
a new line is appended unless the last byte is one. -/
def terminate (b : Bytes) : Option Bytes :=
  match b.getLast? with
  | none => none
  | some last => if last ≠ newline then some (b ++ [newline]) else some b

/-- Why the writer loop stopped. -/
inductive WriteStop where
  /-- Every payload handed to the channel was written. -/
  | drained
  /-- The check `cl.Conn == nil` returned. -/
  | connNil
  /-- A `Write` failed and `log.Fatal` ended the program. -/
  | writeFailed
  /-- The terminator check indexed an empty serialization. -/
  | fault
  deriving DecidableEq, Repr

/-- The result of the writer loop: the bytes put on the connection and why it stopped. -/
structure WriteEnd where
  wire : Bytes
  stop : WriteStop
  deriving DecidableEq, Repr

/-- The loop of `HandleWrite` (`client.go:432`) over the payloads of the channel, oldest
first.  `conn` tells whether `cl.Conn` is set, `writeOk k` whether the `k`-th `Write`
succeeds (a successful `Write` puts all of `b` on the connection), `wire` holds the
bytes written so far. -/
def writeLoop (T : NewerTypes) (marshal : MessageInterface → Bytes) (conn : Bool)
    (writeOk : Nat → Bool) : List MessageInterface → Nat → Bytes → WriteEnd
  | [], _, wire => { wire := wire, stop := WriteStop.drained }
  | command :: rest, k, wire =>
    match terminate (EncodeTransport (envelope T marshal command)) with
    | none => { wire := wire, stop := WriteStop.fault }
    | some b =>
      if conn = false then { wire := wire, stop := WriteStop.connNil }
      else if writeOk k = false then { wire := wire, stop := WriteStop.writeFailed }
      else writeLoop T marshal conn writeOk rest (k + 1) (wire ++ b)

/-- The method `HandleWrite` of `client.go:431` on the payloads sent on `cl.Out`. -/
def HandleWrite (T : NewerTypes) (marshal : MessageInterface → Bytes)
    (writeOk : Nat → Bool) (cl : Client) : WriteEnd :=
  writeLoop T marshal cl.Conn.isSome writeOk cl.Out 0 []

/-- The frame of a payload: its serialized envelope followed by one new line. -/
def frameOf (T : NewerTypes) (marshal : MessageInterface → Bytes)
    (command : MessageInterface) : Bytes :=
  EncodeTransport (envelope T marshal command) ++ [newline]

/-! ## Reader loop -/

/-- The function `Decode` of `messages.go:47` either fills the value or calls
`log.Panic`.  The six message types whose case decodes the payload: -/
inductive Dispatched where
  | Game
  | Connect
  | GameChat
  | GameStatus
  | GameAction
  | GameCommand
  deriving DecidableEq, Repr

/-- One line returned by the scanner, described by what `Decode` makes of it. -/
inductive Line where
  /-- The line does not decode into the `MessageTransport`: `Decode` panics. -/
  | badEnvelope
  /-- The envelope decodes with a dispatched `MsgType`, `Data` does not decode into the
  payload of that type: the inner `Decode` panics. -/
  | badPayload (msgType : Dispatched)
  /-- The envelope decodes, and so does the payload its `MsgType` asks for. -/
  | frame (m : Received)
  deriving DecidableEq, Repr

/-- How the reader loop ended. -/
inductive ReadStop where
  /-- The scanner returned no further line (end of stream or read error). -/
  | endOfStream
  /-- A panic left the loop; it goes on after the deferred call. -/
  | panic
  deriving DecidableEq, Repr

/-- The loop of `HandleRead` (`client.go:453`) over the lines the scanner returns. -/
def readLoop (GameFromFEN : String → Game) : List Line → Client → Client × ReadStop
  | [], cl => (cl, ReadStop.endOfStream)
  | Line.badEnvelope :: _, cl => (cl, ReadStop.panic)
  | Line.badPayload _ :: _, cl => (cl, ReadStop.panic)
  | Line.frame m :: rest, cl =>
    match HandleReadDispatch GameFromFEN m cl with
    | none => (cl, ReadStop.panic)
    | some cl1 => readLoop GameFromFEN rest cl1

/-- The state in which `HandleRead` is left, and how its loop ended. -/
structure ReadEnd where
  client : Client
  stop : ReadStop

/-- The method `HandleRead` of `client.go:449`: the loop, then the deferred
`Disconnect`, which runs on both ways out of the loop. -/
def HandleRead (GameFromFEN : String → Game) (lines : List Line) (cl : Client) :
    Option ReadEnd :=
  match (readLoop GameFromFEN lines cl).1.Disconnect with
  | none => none
  | some cl2 => some { client := cl2, stop := (readLoop GameFromFEN lines cl).2 }

/-- What a test observes of the end of `HandleRead`: how the loop ended, the two button
labels, the number of `App.Stop()` calls and the connection. -/
def ReadEnd.observe (e : ReadEnd) : ReadStop × Action × Action × Nat × Option Nat :=
  (e.stop, e.client.optionBtn1, e.client.optionBtn2, e.client.appStops, e.client.Conn)

/-! ## Board rendering -/

/-- A cell `renderBoard` puts into the board table. -/
inductive Cell where
  /-- A cell of the rank gutter; its text is `chess.Rank(rank).String()`. -/
  | rank (rank : Int)
  /-- A cell of the file row; its text is a blank and `chess.File(file).String()`. -/
  | file (file : Int)
  /-- A board cell: the piece on `sq`, on the colour `squareToColor(sq, cl.highlights)`. -/
  | piece (sq : Square) (pieceType : PieceType)
  deriving DecidableEq, Repr

/-- The body of the two loops of `renderBoard` (`client.go:373`): the cell set at row
`r` and column `f`, if any. -/
def renderCell (cl : Client) (r f : Int) : Option Cell :=
  if f = 0 ∧ r ≠ numrows then
    some (Cell.rank (wrapInt8 (if cl.Role = PlayerRole.White then numrows - r - 1 else r)))
  else if r = numrows ∧ f > 0 then
    some (Cell.file (wrapInt8 (f - 1)))
  else if r = numrows ∧ f = 0 then
    none
  else
    some (Cell.piece (posToSquare cl.Role r f) (cl.Game.PieceTypeAt (posToSquare cl.Role r f)))

/-- The method `renderBoard` of `client.go:366`: the `SetCell` calls in the order of the
loops, rows 0 to 8 and in each row columns 0 to 8. -/
def renderBoard (cl : Client) : List (Int × Int × Cell) :=
  ((List.range 9).map (fun r => (List.range 9).filterMap (fun f =>
    (renderCell cl r f).map (fun cell => ((r : Int), (f : Int), cell))))).flatten

/-! ## Button labels -/

/-- A step of a negotiation run: a call of `HandleAction` with any action, or an event. -/
inductive Call where
  | action (a : Action)
  | event (e : Event)
  deriving DecidableEq, Repr

/-- A sequence of calls applied in order; a fault ends the run. -/
def runCalls (GameFromFEN : String → Game) : List Call → Client → Option Client
  | [], cl => some cl
  | Call.action a :: rest, cl =>
    match HandleAction a cl with
    | none => none
    | some cl1 => runCalls GameFromFEN rest cl1
  | Call.event e :: rest, cl =>
    match step GameFromFEN e cl with
    | none => none
    | some cl1 => runCalls GameFromFEN rest cl1

/-- The five label pairs of the option buttons. -/
def LabelPair (cl : Client) : Prop :=
  (cl.optionBtn1 = Action.ActionDrawPrompt ∧ cl.optionBtn2 = Action.ActionResignPrompt) ∨
  (cl.optionBtn1 = Action.ActionResignYes ∧ cl.optionBtn2 = Action.ActionResignNo) ∨
  (cl.optionBtn1 = Action.ActionDrawAccept ∧ cl.optionBtn2 = Action.ActionDrawReject) ∨
  (cl.optionBtn1 = Action.ActionNewGameAccept ∧ cl.optionBtn2 = Action.ActionNewGameReject) ∨
  (cl.optionBtn1 = Action.ActionNewGamePrompt ∧ cl.optionBtn2 = Action.ActionExit)

/-- The labels that have a case in the click dispatch of the first button (`client.go:154`). -/
def handledByBtn1 (label : Action) : Prop :=
  label = Action.ActionDrawPrompt ∨ label = Action.ActionResignYes ∨
  label = Action.ActionDrawAccept ∨ label = Action.ActionNewGamePrompt ∨
  label = Action.ActionNewGameAccept

/-- The labels that have a case in the click dispatch of the second button (`client.go:169`). -/
def handledByBtn2 (label : Action) : Prop :=
  label = Action.ActionResignPrompt ∨ label = Action.ActionResignNo ∨
  label = Action.ActionDrawReject ∨ label = Action.ActionExit ∨
  label = Action.ActionNewGameReject

/-! ## Vocabulary of the statements -/

/-- The file letter of a square of the board. -/
def fileChar (sq : Square) : Char := fileChars.getD (Square.File sq).toNat 'a'

/-- The rank digit of a square of the board. -/
def rankChar (sq : Square) : Char := rankChars.getD (Square.Rank sq).toNat '1'

/-- The auto-promotion condition in terms of squares: a pawn stands on `A`, and the
step goes from rank 7 to rank 8 or from rank 2 to rank 1 (rank `n` has index `n - 1`). -/
def promotes (g : Game) (A D : Square) : Prop :=
  g.PieceTypeAt A = PieceType.Pawn ∧
    ((Square.Rank A = 6 ∧ Square.Rank D = 7) ∨ (Square.Rank A = 1 ∧ Square.Rank D = 0))

/-- The highlight invariant of the selection gesture: no highlight when not selecting,
exactly the anchor square when selecting. -/
def HighlightInv (cl : Client) : Prop :=
  (cl.selecting = false → cl.highlights = ∅) ∧
  (cl.selecting = true → cl.highlights = {cl.lastSelection})

/-! ## Example data -/

/-- The opening position as the engine reports it: the piece types of the 32 pieces
and the twenty legal first moves. -/
def openingGame : Game :=
  { PieceTypeAt := fun sq =>
      if (8 ≤ sq ∧ sq < 16) ∨ (48 ≤ sq ∧ sq < 56) then PieceType.Pawn
      else if sq = 0 ∨ sq = 7 ∨ sq = 56 ∨ sq = 63 then PieceType.Rook
      else if sq = 1 ∨ sq = 6 ∨ sq = 57 ∨ sq = 62 then PieceType.Knight
      else if sq = 2 ∨ sq = 5 ∨ sq = 58 ∨ sq = 61 then PieceType.Bishop
      else if sq = 3 ∨ sq = 59 then PieceType.Queen
      else if sq = 4 ∨ sq = 60 then PieceType.King
      else PieceType.NoPieceType
    ValidMoves :=
      ["a2a3", "a2a4", "b2b3", "b2b4", "c2c3", "c2c4", "d2d3", "d2d4", "e2e3", "e2e4",
       "f2f3", "f2f4", "g2g3", "g2g4", "h2h3", "h2h4", "b1a3", "b1c3", "g1f3", "g1h3"] }

/-- An endgame position with White to move: king e1, pawn a7, black king h6. -/
def promotionGame : Game :=
  { PieceTypeAt := fun sq =>
      if sq = 48 then PieceType.Pawn
      else if sq = 4 ∨ sq = 47 then PieceType.King
      else PieceType.NoPieceType
    ValidMoves :=
      ["a7a8q", "a7a8r", "a7a8b", "a7a8n", "e1d1", "e1d2", "e1e2", "e1f2", "e1f1"] }

/-- A stand-in for `GameFromFEN` in the examples: every FEN text is read as the opening position. -/
def exampleFromFEN : String → Game := fun _ => openingGame

/-- The events of the example run: connect, take the White role, select e2 (row 6, column 5). -/
def exampleEvents : List Event :=
  [Event.connect true,
   Event.receive (Received.Connect
     { Fen := "rnbqkbnr/pppppppp/8/8/8/8/PPPPPPPP/RNBQKBNR w KQkq - 0 1"
       IsTurn := true
       Role := PlayerRole.White }),
   Event.select 6 5]

/-- The client after `exampleEvents`: White, anchored at e2. -/
def anchoredE2 : Client :=
  { Game := openingGame
    Conn := some 0
    Out := []
    selecting := true
    lastSelection := 12
    highlights := {12}
    Role := PlayerRole.White
    optionBtn1 := Action.ActionDrawPrompt
    optionBtn2 := Action.ActionResignPrompt
    StatusTextView := StatusText.text "Your turn!"
    appStops := 0 }

/-- A terminal outcome on the wire: a `GameAction` message whose action is Win, Lose or Draw. -/
def isTerminalOutcome : MessageInterface → Prop
  | MessageInterface.GameAction m =>
    m.Action = Action.ActionWin ∨ m.Action = Action.ActionLose ∨ m.Action = Action.ActionDraw
  | _ => False

/-- The buttons of the state `ResultShown`: the new-game prompt and Exit. -/
def ResultShown (cl : Client) : Prop :=
  cl.optionBtn1 = Action.ActionNewGamePrompt ∧ cl.optionBtn2 = Action.ActionExit

/-- The events of rematch negotiation: a click on the first button (in `ResultShown` it
offers the rematch) and a received rematch offer, acceptance or rejection. -/
def isRematchNegotiation : Event → Prop
  | Event.button1 => True
  | Event.receive (Received.GameAction m) =>
    m.Action = Action.ActionNewGameOffer ∨ m.Action = Action.ActionNewGameAccept ∨
      m.Action = Action.ActionNewGameReject
  | _ => False

/-- The disconnect event of `ResultShown`: a click on the second button, which shows Exit. -/
def isDisconnect : Event → Prop
  | Event.button2 => True
  | _ => False

/-- A client in `ResultShown`: the new client after connecting and receiving Win. -/
def resultShownClient : Client :=
  { Game := openingGame
    Conn := some 0
    Out := []
    selecting := false
    lastSelection := 0
    highlights := ∅
    Role := PlayerRole.White
    optionBtn1 := Action.ActionNewGamePrompt
    optionBtn2 := Action.ActionExit
    StatusTextView := StatusText.action Action.ActionWin
    appStops := 0 }

/-- The events of a negotiation example: connect, take the White role, offer a draw,
receive Win, offer a rematch. -/
def negotiationEvents : List Event :=
  [Event.connect true,
   Event.receive (Received.Connect
     { Fen := "rnbqkbnr/pppppppp/8/8/8/8/PPPPPPPP/RNBQKBNR w KQkq - 0 1"
       IsTurn := true
       Role := PlayerRole.White }),
   Event.button1,
   Event.receive (Received.GameAction { Action := Action.ActionWin, Message := "" }),
   Event.button1]

/-- The client after `negotiationEvents`. -/
def afterNegotiation : Client :=
  { Game := openingGame
    Conn := some 0
    Out :=
      [MessageInterface.GameAction { Action := Action.ActionDrawOffer, Message := "" },
       MessageInterface.GameAction { Action := Action.ActionNewGameOffer, Message := "" }]
    selecting := false
    lastSelection := 0
    highlights := ∅
    Role := PlayerRole.White
    optionBtn1 := Action.ActionNewGamePrompt
    optionBtn2 := Action.ActionExit
    StatusTextView := StatusText.text "Invitation sent!"
    appStops := 0 }

/-- A received game update: the opening position, the local side to move. -/
def gameUpdateFrame : Received :=
  Received.Game
    { Fen := "rnbqkbnr/pppppppp/8/8/8/8/PPPPPPPP/RNBQKBNR w KQkq - 0 1"
      IsTurn := true }

/-- A received draw offer. -/
def drawOfferFrame : Received :=
  Received.GameAction { Action := Action.ActionDrawOffer, Message := "" }

/-- The message type constants of the newer `messages.go`, as an example: the `iota`
block continued after `TypeMessageGameChat`. -/
def exampleTypes : NewerTypes :=
  { TypeMessageGameStatus := 5, TypeMessageGameAction := 6, TypeMessageGameCommand := 7 }

/-- A stand-in for `Encode` on payloads in the examples: every payload is written as
the empty JSON object. -/
def exampleMarshal : MessageInterface → Bytes := fun _ => ascii "\x7b\x7d"

/-- A received Win notification. -/
def winFrame : Received :=
  Received.GameAction { Action := Action.ActionWin, Message := "" }

/-- The negotiation example as calls, with a received draw offer handled in between. -/
def negotiationCalls : List Call :=
  [Call.event (Event.connect true),
   Call.action Action.ActionDrawOffer,
   Call.event Event.button2,
   Call.event Event.button1,
   Call.event (Event.receive winFrame),
   Call.event Event.button1]

/-- The client after `negotiationCalls`. -/
def afterNegotiationCalls : Client :=
  { Game := openingGame
    Conn := some 0
    Out :=
      [MessageInterface.GameAction { Action := Action.ActionDrawReject, Message := "" },
       MessageInterface.GameAction { Action := Action.ActionDrawOffer, Message := "" },
       MessageInterface.GameAction { Action := Action.ActionNewGameOffer, Message := "" }]
    selecting := false
    lastSelection := 0
    highlights := ∅
    Role := PlayerRole.other 0
    optionBtn1 := Action.ActionNewGamePrompt
    optionBtn2 := Action.ActionExit
    StatusTextView := StatusText.text "Invitation sent!"
    appStops := 0 }

/-! ## Theorems -/

/-- Truncation to `int8` leaves a value of the `int8` range alone. -/
theorem wrapInt8_of_range (x : Int) (hlo : -128 ≤ x) (hhi : x ≤ 127) : wrapInt8 x = x := by
  unfold wrapInt8
  omega

/-- C1: for every row in 0..7 and column in 1..8, `posToSquare` returns for the White
role the square of rank index `8 - row - 1` and file index `col - 1`, which is square
`(7 - row) * 8 + (col - 1)`, and for the Black role the square of rank index `row` and
file index `col - 1`, which is `row * 8 + (col - 1)`; cell (0, 1) is a8 (56) for White
and a1 (0) for Black. -/
theorem posToSquare_orientation (row col : Int)
    (h0 : 0 ≤ row) (h7 : row ≤ 7) (h1 : 1 ≤ col) (h8 : col ≤ 8) :
    (posToSquare PlayerRole.White row col = (7 - row) * 8 + (col - 1) ∧
      Square.Rank (posToSquare PlayerRole.White row col) = 8 - row - 1 ∧
      Square.File (posToSquare PlayerRole.White row col) = col - 1) ∧
    (posToSquare PlayerRole.Black row col = row * 8 + (col - 1) ∧
      Square.Rank (posToSquare PlayerRole.Black row col) = row ∧
      Square.File (posToSquare PlayerRole.Black row col) = col - 1) ∧
    (posToSquare PlayerRole.White 0 1 = 56 ∧ Square.String 56 = some "a8") ∧
    (posToSquare PlayerRole.Black 0 1 = 0 ∧ Square.String 0 = some "a1") := by
  have hW : posToSquare PlayerRole.White row col = (7 - row) * 8 + (col - 1) := by
    have h : posToSquare PlayerRole.White row col = wrapInt8 ((8 - row - 1) * 8 + (col - 1)) := rfl
    rw [h, wrapInt8_of_range _ (by omega) (by omega)]
    ring
  have hB : posToSquare PlayerRole.Black row col = row * 8 + (col - 1) := by
    have h : posToSquare PlayerRole.Black row col = wrapInt8 (row * 8 + (col - 1)) := rfl
    rw [h, wrapInt8_of_range _ (by omega) (by omega)]
  refine ⟨⟨hW, ?_, ?_⟩, ⟨hB, ?_, ?_⟩, ⟨by decide, by decide⟩, ⟨by decide, by decide⟩⟩
  · rw [hW]
    interval_cases row <;> interval_cases col <;> decide
  · rw [hW]
    interval_cases row <;> interval_cases col <;> decide
  · rw [hB]
    interval_cases row <;> interval_cases col <;> decide
  · rw [hB]
    interval_cases row <;> interval_cases col <;> decide

/-- C1 at a concrete cell: row 3, column 5 is e5 (36) for White and e4 (28) for Black. -/
theorem posToSquare_orientation_witness :
    posToSquare PlayerRole.White 3 5 = (7 - 3) * 8 + (5 - 1) ∧
    posToSquare PlayerRole.Black 3 5 = 3 * 8 + (5 - 1) :=
  ⟨(posToSquare_orientation 3 5 (by decide) (by decide) (by decide) (by decide)).1.1,
   (posToSquare_orientation 3 5 (by decide) (by decide) (by decide) (by decide)).2.1.1⟩

/-! ### Squares and candidate strings -/

theorem Square.String_of_onBoard (sq : Square) (h0 : 0 ≤ sq) (h64 : sq < 64) :
    Square.String sq = some (String.mk [fileChar sq, rankChar sq]) := by
  interval_cases sq <;> rfl

theorem rankChar_eq_iff (sq : Square) (h0 : 0 ≤ sq) (h64 : sq < 64) :
    (rankChar sq = '1' ↔ Square.Rank sq = 0) ∧ (rankChar sq = '2' ↔ Square.Rank sq = 1) ∧
    (rankChar sq = '7' ↔ Square.Rank sq = 6) ∧ (rankChar sq = '8' ↔ Square.Rank sq = 7) := by
  interval_cases sq <;> decide

theorem byteAt_coords (a b c d : Char) :
    byteAt (String.mk [a, b] ++ String.mk [c, d]) 1 = some b ∧
    byteAt (String.mk [a, b] ++ String.mk [c, d]) 3 = some d :=
  ⟨rfl, rfl⟩

theorem append_q_ne (s : String) : s ++ "q" ≠ s := by
  intro h
  have h2 := congrArg String.length h
  have h3 : "q".length = 1 := rfl
  simp [h3] at h2

/-- C5: for squares `A` and `D` of the board, the candidate move string is
`A`'s coordinate, `D`'s coordinate and the suffix `q` exactly when a pawn stands on
`A` and the step goes from rank 7 to rank 8 or from rank 2 to rank 1; in every other
case it is exactly the four characters of the two coordinates. -/
theorem candidateMove_autoPromotion (g : Game) (A D : Square)
    (hA0 : 0 ≤ A) (hA : A < 64) (hD0 : 0 ≤ D) (hD : D < 64) :
    ∃ a d, Square.String A = some a ∧ Square.String D = some d ∧
      (a ++ d).length = 4 ∧
      (candidateMove g A D = some (a ++ d ++ "q") ↔ promotes g A D) ∧
      (candidateMove g A D = some (a ++ d) ↔ ¬ promotes g A D) := by
  have hsA := Square.String_of_onBoard A hA0 hA
  have hsD := Square.String_of_onBoard D hD0 hD
  obtain ⟨-, hA2, hA7, -⟩ := rankChar_eq_iff A hA0 hA
  obtain ⟨hD1, -, -, hD8⟩ := rankChar_eq_iff D hD0 hD
  refine ⟨_, _, hsA, hsD, rfl, ?_, ?_⟩
  · simp only [candidateMove, hsA, hsD, byteAt_coords, Option.some.injEq, hA2, hA7, hD1, hD8,
      promotes]
    split_ifs with h
    · simp [h]
    · simp [h, (append_q_ne _).symm]
  · simp only [candidateMove, hsA, hsD, byteAt_coords, Option.some.injEq, hA2, hA7, hD1, hD8,
      promotes]
    split_ifs with h
    · simp [h, append_q_ne]
    · simp [h]

/-! ### The selection gesture -/

theorem isValidMove_foldl (validMoves : List String) (move : String) (acc : Bool) :
    validMoves.foldl (fun isValid validMove => if validMove = move then true else isValid) acc
      = (acc || decide (move ∈ validMoves)) := by
  induction validMoves generalizing acc with
  | nil => simp
  | cons v vs ih =>
    rw [List.foldl_cons, ih]
    by_cases h : v = move
    · simp [h]
    · have h2 : ¬ move = v := fun e => h e.symm
      simp [h, h2]

theorem isValidMove_iff (validMoves : List String) (move : String) :
    isValidMove validMoves move = true ↔ move ∈ validMoves := by
  unfold isValidMove
  rw [isValidMove_foldl]
  simp

/-- The selection callback in the valid destination branch. -/
theorem SetSelectedFunc_valid (row col : Int) (cl : Client) (mv : String)
    (hsel : cl.selecting = true)
    (hne : posToSquare cl.Role row col ≠ cl.lastSelection)
    (hcand : candidateMove cl.Game cl.lastSelection (posToSquare cl.Role row col) = some mv)
    (hvalid : mv ∈ cl.Game.ValidMoves) :
    SetSelectedFunc row col cl = some { cl with
      Out := cl.Out ++ [MessageInterface.Move { Move := mv, Msg := "Hi" }]
      highlights := cl.highlights.erase cl.lastSelection
      lastSelection := 0
      selecting := false } := by
  have hv := (isValidMove_iff cl.Game.ValidMoves mv).2 hvalid
  simp [SetSelectedFunc, hsel, hne, hcand, hv]

/-- The selection callback in the invalid destination branch. -/
theorem SetSelectedFunc_invalid (row col : Int) (cl : Client) (mv : String)
    (hsel : cl.selecting = true)
    (hne : posToSquare cl.Role row col ≠ cl.lastSelection)
    (hcand : candidateMove cl.Game cl.lastSelection (posToSquare cl.Role row col) = some mv)
    (hinvalid : mv ∉ cl.Game.ValidMoves) :
    SetSelectedFunc row col cl = some { cl with
      highlights := (cl.highlights.erase (posToSquare cl.Role row col)).erase cl.lastSelection
      selecting := false
      lastSelection := 0 } := by
  have hv : isValidMove cl.Game.ValidMoves mv = false := by
    cases h : isValidMove cl.Game.ValidMoves mv
    · rfl
    · exact absurd ((isValidMove_iff _ _).1 h) hinvalid
  simp [SetSelectedFunc, hsel, hne, hcand, hv]

/-- The selection callback keeps the highlight invariant. -/
theorem SetSelectedFunc_inv (row col : Int) (cl cl1 : Client)
    (hinv : HighlightInv cl) (h : SetSelectedFunc row col cl = some cl1) :
    HighlightInv cl1 := by
  obtain ⟨hidle, hanch⟩ := hinv
  unfold SetSelectedFunc at h
  cases hs : cl.selecting
  · have he := hidle hs
    simp only [hs, Bool.false_eq_true, if_false, Option.some.injEq] at h
    subst h
    simp [HighlightInv, he]
  · have he := hanch hs
    simp only [hs, if_true] at h
    split_ifs at h with h1
    · simp only [Option.some.injEq] at h
      subst h
      simp [HighlightInv, he, h1]
    · cases hc : candidateMove cl.Game cl.lastSelection (posToSquare cl.Role row col) with
      | none => simp [hc] at h
      | some mv =>
        simp only [hc] at h
        split_ifs at h with h2
        · simp only [Option.some.injEq] at h
          subst h
          simp [HighlightInv, he, Finset.erase_eq_of_not_mem, h1]
        · simp only [Option.some.injEq] at h
          subst h
          simp [HighlightInv, he]

/-! ### What the other entry points leave alone -/

theorem Disconnect_frame (cl cl1 : Client) (h : cl.Disconnect = some cl1) :
    cl1.selecting = cl.selecting ∧ cl1.lastSelection = cl.lastSelection ∧
    cl1.highlights = cl.highlights ∧ cl1.Out = cl.Out ∧
    cl1.optionBtn1 = cl.optionBtn1 ∧ cl1.optionBtn2 = cl.optionBtn2 := by
  unfold Client.Disconnect at h
  cases hc : cl.Conn with
  | none => simp [hc] at h
  | some k =>
    simp only [hc, Option.some.injEq] at h
    subst h
    simp

theorem HandleAction_selection (action : Action) (cl cl1 : Client)
    (h : HandleAction action cl = some cl1) :
    cl1.selecting = cl.selecting ∧ cl1.lastSelection = cl.lastSelection ∧
    cl1.highlights = cl.highlights := by
  cases action
  case ActionExit =>
    obtain ⟨h1, h2, h3, -⟩ := Disconnect_frame cl cl1 h
    exact ⟨h1, h2, h3⟩
  all_goals
    simp only [HandleAction, Option.some.injEq] at h
    subst h
    simp [Client.setLabels, Client.send]

theorem optionBtn1Selected_selection (cl cl1 : Client) (h : optionBtn1Selected cl = some cl1) :
    cl1.selecting = cl.selecting ∧ cl1.lastSelection = cl.lastSelection ∧
    cl1.highlights = cl.highlights := by
  unfold optionBtn1Selected at h
  split at h
  any_goals exact HandleAction_selection _ cl cl1 h
  simp only [Option.some.injEq] at h
  subst h
  simp

theorem optionBtn2Selected_selection (cl cl1 : Client) (h : optionBtn2Selected cl = some cl1) :
    cl1.selecting = cl.selecting ∧ cl1.lastSelection = cl.lastSelection ∧
    cl1.highlights = cl.highlights := by
  unfold optionBtn2Selected at h
  split at h
  any_goals exact HandleAction_selection _ cl cl1 h
  simp only [Option.some.injEq] at h
  subst h
  simp

theorem HandleReadDispatch_selection (GameFromFEN : String → Game) (m : Received)
    (cl cl1 : Client) (h : HandleReadDispatch GameFromFEN m cl = some cl1) :
    cl1.selecting = cl.selecting ∧ cl1.lastSelection = cl.lastSelection ∧
    cl1.highlights = cl.highlights := by
  unfold HandleReadDispatch at h
  split at h
  case h_5 message =>
    split at h
    all_goals
      first
        | (have hk := HandleAction_selection _ _ cl1 h
           exact hk)
        | (simp only [Option.some.injEq] at h
           subst h
           simp)
  all_goals
    simp only [Option.some.injEq] at h
    subst h
    simp [Client.setLabels]

theorem HighlightInv_of_selection_eq (cl cl1 : Client) (hinv : HighlightInv cl)
    (h : cl1.selecting = cl.selecting ∧ cl1.lastSelection = cl.lastSelection ∧
      cl1.highlights = cl.highlights) : HighlightInv cl1 := by
  obtain ⟨h1, h2, h3⟩ := h
  unfold HighlightInv at *
  rw [h1, h2, h3]
  exact hinv

theorem step_inv (GameFromFEN : String → Game) (e : Event) (cl cl1 : Client)
    (hinv : HighlightInv cl) (h : step GameFromFEN e cl = some cl1) : HighlightInv cl1 := by
  cases e with
  | connect dialed =>
    simp only [step, Option.some.injEq] at h
    subst h
    apply HighlightInv_of_selection_eq cl _ hinv
    unfold Client.Connect
    split <;> simp
  | select row col => exact SetSelectedFunc_inv row col cl cl1 hinv h
  | button1 =>
    exact HighlightInv_of_selection_eq cl cl1 hinv (optionBtn1Selected_selection cl cl1 h)
  | button2 =>
    exact HighlightInv_of_selection_eq cl cl1 hinv (optionBtn2Selected_selection cl cl1 h)
  | receive m =>
    exact HighlightInv_of_selection_eq cl cl1 hinv
      (HandleReadDispatch_selection GameFromFEN m cl cl1 h)

theorem run_inv (GameFromFEN : String → Game) (evs : List Event) (cl cl1 : Client)
    (hinv : HighlightInv cl) (h : run GameFromFEN evs cl = some cl1) : HighlightInv cl1 := by
  induction evs generalizing cl with
  | nil =>
    simp only [run, Option.some.injEq] at h
    subst h
    exact hinv
  | cons e es ih =>
    simp only [run] at h
    cases hs : step GameFromFEN e cl with
    | none => simp [hs] at h
    | some c =>
      simp only [hs] at h
      exact ih c (step_inv GameFromFEN e cl c hinv hs) h

theorem NewClient_inv (newGame : Game) (zeroRole : PlayerRole) :
    HighlightInv (NewClient newGame zeroRole) := by
  simp [HighlightInv, NewClient]

/-! ### Claims about the selection gesture -/

/-- C2: in every state reached from the initial client state by a sequence of
board-cell selections (also when connects, button clicks and received frames are
interleaved), if the client is anchored at `A`, a square `D` other than `A` is selected
and the candidate string is a legal move of the engine, then exactly one `Move` message
with that text is enqueued, the client stops selecting, and neither `A` nor `D` is
highlighted afterwards. -/
theorem valid_move_commit (GameFromFEN : String → Game) (newGame : Game)
    (zeroRole : PlayerRole) (evs : List Event) (cl : Client) (row col : Int) (mv : String)
    (hreach : run GameFromFEN evs (NewClient newGame zeroRole) = some cl)
    (hsel : cl.selecting = true)
    (hne : posToSquare cl.Role row col ≠ cl.lastSelection)
    (hcand : candidateMove cl.Game cl.lastSelection (posToSquare cl.Role row col) = some mv)
    (hvalid : mv ∈ cl.Game.ValidMoves) :
    ∃ cl1, SetSelectedFunc row col cl = some cl1 ∧
      cl1.Out = cl.Out ++ [MessageInterface.Move { Move := mv, Msg := "Hi" }] ∧
      cl1.selecting = false ∧
      cl.lastSelection ∉ cl1.highlights ∧
      posToSquare cl.Role row col ∉ cl1.highlights ∧
      cl1.highlights = ∅ := by
  have hinv := run_inv GameFromFEN evs _ cl (NewClient_inv newGame zeroRole) hreach
  have hh := hinv.2 hsel
  refine ⟨_, SetSelectedFunc_valid row col cl mv hsel hne hcand hvalid, rfl, rfl, ?_, ?_, ?_⟩
  · simp
  · simp [hh, hne]
  · simp [hh]

/-- C2 on the opening position: White anchored at e2 selects e4, and `e2e4` is sent. -/
theorem valid_move_commit_witness :
    ∃ cl1, SetSelectedFunc 4 5 anchoredE2 = some cl1 ∧
      cl1.Out = anchoredE2.Out ++ [MessageInterface.Move { Move := "e2e4", Msg := "Hi" }] ∧
      cl1.selecting = false ∧
      anchoredE2.lastSelection ∉ cl1.highlights ∧
      posToSquare anchoredE2.Role 4 5 ∉ cl1.highlights ∧
      cl1.highlights = ∅ :=
  valid_move_commit exampleFromFEN openingGame (PlayerRole.other 0) exampleEvents anchoredE2
    4 5 "e2e4" rfl rfl (by decide) rfl (by decide)

/-- C3: for every client anchored at `A` and every selected square `D` other than `A`
whose candidate string is no legal move of the engine, the selection leaves the client
not selecting, with neither `A` nor `D` highlighted, the outbound queue unchanged and
the game unchanged. -/
theorem invalid_move_noop (cl : Client) (row col : Int) (mv : String)
    (hsel : cl.selecting = true)
    (hne : posToSquare cl.Role row col ≠ cl.lastSelection)
    (hcand : candidateMove cl.Game cl.lastSelection (posToSquare cl.Role row col) = some mv)
    (hinvalid : mv ∉ cl.Game.ValidMoves) :
    ∃ cl1, SetSelectedFunc row col cl = some cl1 ∧
      cl1.selecting = false ∧
      cl.lastSelection ∉ cl1.highlights ∧
      posToSquare cl.Role row col ∉ cl1.highlights ∧
      cl1.Out = cl.Out ∧
      cl1.Game = cl.Game := by
  refine ⟨_, SetSelectedFunc_invalid row col cl mv hsel hne hcand hinvalid, rfl, ?_, ?_, rfl, rfl⟩
  · simp
  · simp

/-- C3 on the opening position: White anchored at e2 selects e5; `e2e5` is not legal. -/
theorem invalid_move_noop_witness :
    ∃ cl1, SetSelectedFunc 3 5 anchoredE2 = some cl1 ∧
      cl1.selecting = false ∧
      anchoredE2.lastSelection ∉ cl1.highlights ∧
      posToSquare anchoredE2.Role 3 5 ∉ cl1.highlights ∧
      cl1.Out = anchoredE2.Out ∧
      cl1.Game = anchoredE2.Game :=
  invalid_move_noop anchoredE2 3 5 "e2e5" rfl (by decide) rfl (by decide)

/-- C4: from any state that is not selecting, selecting a cell (square `S`) and then
the same cell again ends not selecting with `S` not highlighted; neither selection
enqueues a message, and the game is unchanged. -/
theorem selection_cancel (cl : Client) (row col : Int) (hidle : cl.selecting = false) :
    ∃ cl1 cl2, SetSelectedFunc row col cl = some cl1 ∧
      SetSelectedFunc row col cl1 = some cl2 ∧
      cl1.selecting = true ∧ cl1.lastSelection = posToSquare cl.Role row col ∧
      cl2.selecting = false ∧
      posToSquare cl.Role row col ∉ cl2.highlights ∧
      cl1.Out = cl.Out ∧ cl2.Out = cl.Out ∧
      cl1.Game = cl.Game ∧ cl2.Game = cl.Game := by
  refine ⟨{ cl with
      highlights := insert (posToSquare cl.Role row col) cl.highlights
      selecting := true
      lastSelection := posToSquare cl.Role row col },
    { cl with
      selecting := false
      lastSelection := 0
      highlights := (insert (posToSquare cl.Role row col) cl.highlights).erase
        (posToSquare cl.Role row col) }, ?_, ?_, rfl, rfl, rfl, ?_, rfl, rfl, rfl, rfl⟩
  · simp [SetSelectedFunc, hidle]
  · simp [SetSelectedFunc]
  · simp

/-- C4 on the new client of the opening position: cell (6, 5) selected twice. -/
theorem selection_cancel_witness :
    ∃ cl1 cl2, SetSelectedFunc 6 5 (NewClient openingGame PlayerRole.White) = some cl1 ∧
      SetSelectedFunc 6 5 cl1 = some cl2 ∧
      cl1.selecting = true ∧
      cl1.lastSelection = posToSquare (NewClient openingGame PlayerRole.White).Role 6 5 ∧
      cl2.selecting = false ∧
      posToSquare (NewClient openingGame PlayerRole.White).Role 6 5 ∉ cl2.highlights ∧
      cl1.Out = (NewClient openingGame PlayerRole.White).Out ∧
      cl2.Out = (NewClient openingGame PlayerRole.White).Out ∧
      cl1.Game = (NewClient openingGame PlayerRole.White).Game ∧
      cl2.Game = (NewClient openingGame PlayerRole.White).Game :=
  selection_cancel (NewClient openingGame PlayerRole.White) 6 5 rfl

/-- C5 on a pawn at a7: the step to a8 gives the candidate `a7a8q`. -/
theorem candidateMove_autoPromotion_witness :
    ∃ a d, Square.String 48 = some a ∧ Square.String 56 = some d ∧
      (a ++ d).length = 4 ∧
      (candidateMove promotionGame 48 56 = some (a ++ d ++ "q") ↔ promotes promotionGame 48 56) ∧
      (candidateMove promotionGame 48 56 = some (a ++ d) ↔ ¬ promotes promotionGame 48 56) :=
  candidateMove_autoPromotion promotionGame 48 56 (by decide) (by decide) (by decide) (by decide)

/-! ### Claims about action negotiation -/

/-- C6: handling `ActionResignPrompt` enqueues nothing and only switches the two
buttons to the resign confirmation and cancellation labels; from there the click on
the first button is `ActionResignYes` and enqueues exactly one `GameAction` with that
action, and the click on the second button is `ActionResignNo`, which enqueues nothing
and restores the labels Draw and Resign. -/
theorem resign_confirmation (cl : Client) :
    HandleAction Action.ActionResignPrompt cl =
      some { cl with optionBtn1 := Action.ActionResignYes, optionBtn2 := Action.ActionResignNo } ∧
    (HandleAction Action.ActionResignPrompt cl).map Client.Out = some cl.Out ∧
    HandleAction Action.ActionResignYes cl =
      some { cl with Out := cl.Out ++
        [MessageInterface.GameAction { Action := Action.ActionResignYes, Message := "" }] } ∧
    HandleAction Action.ActionResignNo cl =
      some { cl with optionBtn1 := Action.ActionDrawPrompt,
                     optionBtn2 := Action.ActionResignPrompt } ∧
    (HandleAction Action.ActionResignNo cl).map Client.Out = some cl.Out ∧
    optionBtn1Selected (cl.setLabels Action.ActionResignYes Action.ActionResignNo) =
      HandleAction Action.ActionResignYes
        (cl.setLabels Action.ActionResignYes Action.ActionResignNo) ∧
    optionBtn2Selected (cl.setLabels Action.ActionResignYes Action.ActionResignNo) =
      HandleAction Action.ActionResignNo
        (cl.setLabels Action.ActionResignYes Action.ActionResignNo) :=
  ⟨rfl, rfl, rfl, rfl, rfl, rfl, rfl⟩

/-- C7: whatever the two button labels are, dispatching a received `GameAction` whose
action is Win, Lose or Draw leaves the buttons at the new-game prompt and Exit and
enqueues nothing. -/
theorem terminal_transition (GameFromFEN : String → Game) (cl : Client)
    (message : MessageGameAction)
    (hterm : message.Action = Action.ActionWin ∨ message.Action = Action.ActionLose ∨
      message.Action = Action.ActionDraw) :
    ∃ cl1, HandleReadDispatch GameFromFEN (Received.GameAction message) cl = some cl1 ∧
      cl1.optionBtn1 = Action.ActionNewGamePrompt ∧
      cl1.optionBtn2 = Action.ActionExit ∧
      cl1.Out = cl.Out := by
  obtain ⟨a, detail⟩ := message
  simp only at hterm
  rcases hterm with h | h | h <;> subst h <;>
    exact ⟨_, rfl, rfl, rfl, rfl⟩

/-- C7 on the anchored example client: Win with the detail text `checkmate`. -/
theorem terminal_transition_witness :
    ∃ cl1, HandleReadDispatch exampleFromFEN
        (Received.GameAction { Action := Action.ActionWin, Message := "checkmate" })
        anchoredE2 = some cl1 ∧
      cl1.optionBtn1 = Action.ActionNewGamePrompt ∧
      cl1.optionBtn2 = Action.ActionExit ∧
      cl1.Out = anchoredE2.Out :=
  terminal_transition exampleFromFEN anchoredE2
    { Action := Action.ActionWin, Message := "checkmate" } (Or.inl rfl)

/-- C10: dispatching a received `GameAction` with `ActionDrawOffer` shows the draw
Accept and Reject labels and enqueues nothing; from there the click on the first button
enqueues exactly one `GameAction` with `ActionDrawAccept`, the click on the second
exactly one with `ActionDrawReject`, and both restore the labels Draw and Resign. -/
theorem draw_offer_answered (GameFromFEN : String → Game) (cl : Client) (detail : String) :
    HandleReadDispatch GameFromFEN
        (Received.GameAction { Action := Action.ActionDrawOffer, Message := detail }) cl =
      some { cl with optionBtn1 := Action.ActionDrawAccept,
                     optionBtn2 := Action.ActionDrawReject } ∧
    (HandleReadDispatch GameFromFEN
        (Received.GameAction { Action := Action.ActionDrawOffer, Message := detail }) cl).map
      Client.Out = some cl.Out ∧
    optionBtn1Selected
        { cl with optionBtn1 := Action.ActionDrawAccept, optionBtn2 := Action.ActionDrawReject } =
      some { cl with
        Out := cl.Out ++
          [MessageInterface.GameAction { Action := Action.ActionDrawAccept, Message := "" }]
        optionBtn1 := Action.ActionDrawPrompt
        optionBtn2 := Action.ActionResignPrompt } ∧
    optionBtn2Selected
        { cl with optionBtn1 := Action.ActionDrawAccept, optionBtn2 := Action.ActionDrawReject } =
      some { cl with
        Out := cl.Out ++
          [MessageInterface.GameAction { Action := Action.ActionDrawReject, Message := "" }]
        optionBtn1 := Action.ActionDrawPrompt
        optionBtn2 := Action.ActionResignPrompt } :=
  ⟨rfl, rfl, rfl, rfl⟩

/-! ### What the entry points enqueue -/

theorem HandleAction_out (action : Action) (cl cl1 : Client)
    (h : HandleAction action cl = some cl1) :
    ∃ added, cl1.Out = cl.Out ++ added ∧ ∀ m ∈ added, ¬ isTerminalOutcome m := by
  cases action
  case ActionExit =>
    obtain ⟨-, -, -, h4, -⟩ := Disconnect_frame cl cl1 h
    exact ⟨[], by simp [h4], by simp⟩
  all_goals
    simp only [HandleAction, Option.some.injEq] at h
    subst h
    first
      | exact ⟨[_], rfl, by simp [isTerminalOutcome]⟩
      | exact ⟨[], by simp [Client.setLabels], by simp⟩

theorem SetSelectedFunc_out (row col : Int) (cl cl1 : Client)
    (h : SetSelectedFunc row col cl = some cl1) :
    ∃ added, cl1.Out = cl.Out ++ added ∧ ∀ m ∈ added, ¬ isTerminalOutcome m := by
  unfold SetSelectedFunc at h
  cases hs : cl.selecting
  · simp only [hs, Bool.false_eq_true, if_false, Option.some.injEq] at h
    subst h
    exact ⟨[], by simp, by simp⟩
  · simp only [hs, if_true] at h
    split_ifs at h with h1
    · simp only [Option.some.injEq] at h
      subst h
      exact ⟨[], by simp, by simp⟩
    · cases hc : candidateMove cl.Game cl.lastSelection (posToSquare cl.Role row col) with
      | none => simp [hc] at h
      | some mv =>
        simp only [hc] at h
        split_ifs at h with h2
        · simp only [Option.some.injEq] at h
          subst h
          exact ⟨[], by simp, by simp⟩
        · simp only [Option.some.injEq] at h
          subst h
          exact ⟨[_], rfl, by simp [isTerminalOutcome]⟩

theorem optionBtn1Selected_out (cl cl1 : Client) (h : optionBtn1Selected cl = some cl1) :
    ∃ added, cl1.Out = cl.Out ++ added ∧ ∀ m ∈ added, ¬ isTerminalOutcome m := by
  unfold optionBtn1Selected at h
  split at h
  any_goals exact HandleAction_out _ cl cl1 h
  simp only [Option.some.injEq] at h
  subst h
  exact ⟨[], by simp, by simp⟩

theorem optionBtn2Selected_out (cl cl1 : Client) (h : optionBtn2Selected cl = some cl1) :
    ∃ added, cl1.Out = cl.Out ++ added ∧ ∀ m ∈ added, ¬ isTerminalOutcome m := by
  unfold optionBtn2Selected at h
  split at h
  any_goals exact HandleAction_out _ cl cl1 h
  simp only [Option.some.injEq] at h
  subst h
  exact ⟨[], by simp, by simp⟩

theorem HandleReadDispatch_out (GameFromFEN : String → Game) (m : Received)
    (cl cl1 : Client) (h : HandleReadDispatch GameFromFEN m cl = some cl1) :
    ∃ added, cl1.Out = cl.Out ++ added ∧ ∀ m ∈ added, ¬ isTerminalOutcome m := by
  unfold HandleReadDispatch at h
  split at h
  case h_5 message =>
    split at h
    all_goals
      first
        | (have hk := HandleAction_out _ _ cl1 h
           exact hk)
        | (simp only [Option.some.injEq] at h
           subst h
           exact ⟨[], by simp, by simp⟩)
  all_goals
    simp only [Option.some.injEq] at h
    subst h
    exact ⟨[], by simp [Client.setLabels], by simp⟩

theorem step_out (GameFromFEN : String → Game) (e : Event) (cl cl1 : Client)
    (h : step GameFromFEN e cl = some cl1) :
    ∃ added, cl1.Out = cl.Out ++ added ∧ ∀ m ∈ added, ¬ isTerminalOutcome m := by
  cases e with
  | connect dialed =>
    simp only [step, Option.some.injEq] at h
    subst h
    refine ⟨[], ?_, by simp⟩
    unfold Client.Connect
    split <;> simp
  | select row col => exact SetSelectedFunc_out row col cl cl1 h
  | button1 => exact optionBtn1Selected_out cl cl1 h
  | button2 => exact optionBtn2Selected_out cl cl1 h
  | receive m => exact HandleReadDispatch_out GameFromFEN m cl cl1 h

theorem run_out (GameFromFEN : String → Game) (evs : List Event) (cl cl1 : Client)
    (h : run GameFromFEN evs cl = some cl1) :
    ∃ added, cl1.Out = cl.Out ++ added ∧ ∀ m ∈ added, ¬ isTerminalOutcome m := by
  induction evs generalizing cl with
  | nil =>
    simp only [run, Option.some.injEq] at h
    subst h
    exact ⟨[], by simp, by simp⟩
  | cons e es ih =>
    simp only [run] at h
    cases hs : step GameFromFEN e cl with
    | none => simp [hs] at h
    | some c =>
      simp only [hs] at h
      obtain ⟨a1, h1, h1t⟩ := step_out GameFromFEN e cl c hs
      obtain ⟨a2, h2, h2t⟩ := ih c h
      refine ⟨a1 ++ a2, by rw [h2, h1, List.append_assoc], ?_⟩
      intro m hm
      rcases List.mem_append.1 hm with hm | hm
      · exact h1t m hm
      · exact h2t m hm

theorem HandleAction_returns (action : Action) (cl : Client)
    (h : action ≠ Action.ActionExit ∨ cl.Conn ≠ none) :
    ∃ cl1, HandleAction action cl = some cl1 := by
  cases action
  case ActionExit =>
    rcases h with h | h
    · exact absurd rfl h
    · cases hc : cl.Conn with
      | none => exact absurd hc h
      | some k =>
        refine ⟨{ cl with appStops := cl.appStops + 1, Conn := some (k + 1) }, ?_⟩
        simp [HandleAction, Client.Disconnect, hc]
  all_goals exact ⟨_, rfl⟩

/-- C8: the client never originates a terminal outcome.  Every call of `HandleAction`
returns (except Exit on a nil connection) and appends to the outbound queue only
messages that are no `GameAction` with Win, Lose or Draw; the same holds for every
sequence of events (button clicks, received frames, cell selections, connects), so a
run from the new client holds no such message in its queue. -/
theorem no_terminal_outcome_sent (GameFromFEN : String → Game) :
    (∀ action cl, action ≠ Action.ActionExit ∨ cl.Conn ≠ none →
      ∃ cl1, HandleAction action cl = some cl1) ∧
    (∀ action cl cl1, HandleAction action cl = some cl1 →
      ∃ added, cl1.Out = cl.Out ++ added ∧ ∀ m ∈ added, ¬ isTerminalOutcome m) ∧
    (∀ evs cl cl1, run GameFromFEN evs cl = some cl1 →
      ∃ added, cl1.Out = cl.Out ++ added ∧ ∀ m ∈ added, ¬ isTerminalOutcome m) ∧
    (∀ evs newGame zeroRole cl1, run GameFromFEN evs (NewClient newGame zeroRole) = some cl1 →
      ∀ m ∈ cl1.Out, ¬ isTerminalOutcome m) := by
  refine ⟨HandleAction_returns, HandleAction_out, run_out GameFromFEN, ?_⟩
  intro evs newGame zeroRole cl1 h m hm
  obtain ⟨added, h1, h2⟩ := run_out GameFromFEN evs _ cl1 h
  have h3 : cl1.Out = added := by simpa [NewClient] using h1
  exact h2 m (h3 ▸ hm)

/-- C8 on the negotiation example: the two messages sent are a draw offer and a
rematch offer, none of them a terminal outcome. -/
theorem no_terminal_outcome_sent_witness :
    ∀ m ∈ afterNegotiation.Out, ¬ isTerminalOutcome m :=
  (no_terminal_outcome_sent exampleFromFEN).2.2.2 negotiationEvents openingGame
    (PlayerRole.other 0) afterNegotiation rfl

/-- C9 as stated fails: from `ResultShown`, a received game update moves the buttons
to Draw and Resign, and a received draw offer moves them to the draw Accept and Reject
labels; neither event is a rematch-negotiation event or the disconnect. -/
theorem resultShown_left_by_received_frame :
    ResultShown resultShownClient ∧
    (step exampleFromFEN (Event.receive gameUpdateFrame) resultShownClient).map
        (fun c => (c.optionBtn1, c.optionBtn2)) =
      some (Action.ActionDrawPrompt, Action.ActionResignPrompt) ∧
    ¬ isRematchNegotiation (Event.receive gameUpdateFrame) ∧
    ¬ isDisconnect (Event.receive gameUpdateFrame) ∧
    (step exampleFromFEN (Event.receive drawOfferFrame) resultShownClient).map
        (fun c => (c.optionBtn1, c.optionBtn2)) =
      some (Action.ActionDrawAccept, Action.ActionDrawReject) ∧
    ¬ isRematchNegotiation (Event.receive drawOfferFrame) ∧
    ¬ isDisconnect (Event.receive drawOfferFrame) ∧
    ¬ (∀ (cl : Client) (e : Event) (cl1 : Client), ResultShown cl →
        (e = Event.button1 ∨ e = Event.button2 ∨ ∃ m, e = Event.receive m) →
        step exampleFromFEN e cl = some cl1 →
        ResultShown cl1 ∨ isRematchNegotiation e ∨ isDisconnect e) := by
  refine ⟨⟨rfl, rfl⟩, rfl, ?_, ?_, rfl, ?_, ?_, ?_⟩
  · simp [isRematchNegotiation, gameUpdateFrame]
  · simp [isDisconnect]
  · simp [isRematchNegotiation, drawOfferFrame]
  · simp [isDisconnect]
  · intro hall
    have h := hall resultShownClient (Event.receive gameUpdateFrame) _ ⟨rfl, rfl⟩
      (Or.inr (Or.inr ⟨_, rfl⟩)) rfl
    simp [ResultShown, isRematchNegotiation, isDisconnect, Client.setLabels,
      gameUpdateFrame] at h

/-- C9 amended: from `ResultShown`, a click on the first button enqueues a rematch
offer and a click on the second is the disconnect, and both leave the buttons in
`ResultShown`; every received frame is handled, and it moves the buttons to Draw and
Resign when it is a game update, to the draw Accept and Reject labels when it is a draw
offer, to the rematch Accept and Reject labels when it is a rematch offer, and leaves
them in `ResultShown` when it is any other frame. -/
theorem resultShown_exits (GameFromFEN : String → Game) (cl : Client) (hres : ResultShown cl) :
    optionBtn1Selected cl = some { cl with
      Out := cl.Out ++
        [MessageInterface.GameAction { Action := Action.ActionNewGameOffer, Message := "" }]
      StatusTextView := StatusText.text "Invitation sent!" } ∧
    optionBtn2Selected cl = cl.Disconnect ∧
    (∀ cl1, cl.Disconnect = some cl1 → ResultShown cl1) ∧
    (∀ m, ∃ cl1, HandleReadDispatch GameFromFEN m cl = some cl1 ∧
      ((∃ message, m = Received.Game message) →
        cl1.optionBtn1 = Action.ActionDrawPrompt ∧
        cl1.optionBtn2 = Action.ActionResignPrompt) ∧
      ((∃ detail, m = Received.GameAction
          { Action := Action.ActionDrawOffer, Message := detail }) →
        cl1.optionBtn1 = Action.ActionDrawAccept ∧
        cl1.optionBtn2 = Action.ActionDrawReject) ∧
      ((∃ detail, m = Received.GameAction
          { Action := Action.ActionNewGameOffer, Message := detail }) →
        cl1.optionBtn1 = Action.ActionNewGameAccept ∧
        cl1.optionBtn2 = Action.ActionNewGameReject) ∧
      ((¬ ∃ message, m = Received.Game message) →
        (¬ ∃ detail, m = Received.GameAction
          { Action := Action.ActionDrawOffer, Message := detail }) →
        (¬ ∃ detail, m = Received.GameAction
          { Action := Action.ActionNewGameOffer, Message := detail }) →
        ResultShown cl1)) := by
  obtain ⟨h1, h2⟩ := hres
  refine ⟨?_, ?_, ?_, ?_⟩
  · simp [optionBtn1Selected, h1, HandleAction, Client.send]
  · simp [optionBtn2Selected, h2, HandleAction]
  · intro cl1 hd
    obtain ⟨-, -, -, -, h5, h6⟩ := Disconnect_frame cl cl1 hd
    exact ⟨h5.trans h1, h6.trans h2⟩
  · intro m
    cases m with
    | Game message =>
      refine ⟨_, rfl, fun _ => ⟨rfl, rfl⟩, ?_, ?_, ?_⟩
      · rintro ⟨d, hd⟩
        cases hd
      · rintro ⟨d, hd⟩
        cases hd
      · intro hg
        exact absurd ⟨message, rfl⟩ hg
    | GameAction message =>
      obtain ⟨a, detail⟩ := message
      cases a
      case ActionDrawOffer =>
        refine ⟨_, rfl, ?_, fun _ => ⟨rfl, rfl⟩, ?_, ?_⟩
        · rintro ⟨d, hd⟩
          cases hd
        · rintro ⟨d, hd⟩
          cases hd
        · intro _ hg
          exact absurd ⟨detail, rfl⟩ hg
      case ActionNewGameOffer =>
        refine ⟨_, rfl, ?_, ?_, fun _ => ⟨rfl, rfl⟩, ?_⟩
        · rintro ⟨d, hd⟩
          cases hd
        · rintro ⟨d, hd⟩
          cases hd
        · intro _ _ hg
          exact absurd ⟨detail, rfl⟩ hg
      all_goals
        refine ⟨_, rfl, ?_, ?_, ?_, ?_⟩
        · rintro ⟨d, hd⟩
          cases hd
        · rintro ⟨d, hd⟩
          cases hd
        · rintro ⟨d, hd⟩
          cases hd
        · intro _ _ _
          first
            | exact ⟨rfl, rfl⟩
            | exact ⟨h1, h2⟩
    | _ =>
      refine ⟨_, rfl, ?_, ?_, ?_, fun _ _ _ => ⟨h1, h2⟩⟩
      · rintro ⟨d, hd⟩
        cases hd
      · rintro ⟨d, hd⟩
        cases hd
      · rintro ⟨d, hd⟩
        cases hd

/-- C9 amended, on the example client in `ResultShown`: the Exit click is the
disconnect and keeps the buttons, and a game update moves them to Draw and Resign. -/
theorem resultShown_exits_witness :
    (optionBtn2Selected resultShownClient = resultShownClient.Disconnect ∧
      (∀ cl1, resultShownClient.Disconnect = some cl1 → ResultShown cl1)) ∧
    (∃ cl1, HandleReadDispatch exampleFromFEN gameUpdateFrame resultShownClient = some cl1 ∧
      cl1.optionBtn1 = Action.ActionDrawPrompt ∧
      cl1.optionBtn2 = Action.ActionResignPrompt) := by
  have h := resultShown_exits exampleFromFEN resultShownClient ⟨rfl, rfl⟩
  refine ⟨⟨h.2.1, h.2.2.1⟩, ?_⟩
  obtain ⟨cl1, hd, hg, -⟩ := h.2.2.2 gameUpdateFrame
  exact ⟨cl1, hd, hg ⟨_, rfl⟩⟩

/-! ### The writer loop -/

theorem EncodeTransport_eq_concat (t : MessageTransport) :
    ∃ body, EncodeTransport t = body ++ [125] := by
  refine ⟨ascii "\x7b\"MsgType\":" ++ intJSON t.MsgType ++
    ascii ",\"Data\":" ++ (if t.Data = [] then ascii "null" else t.Data) ++
    ascii ",\"PlayerId\":" ++ intJSON t.PlayerId, ?_⟩
  have h : ascii "\x7d" = [125] := by decide
  unfold EncodeTransport
  rw [h]

theorem terminate_concat (b : Bytes) (last : Nat) :
    terminate (b ++ [last]) =
      some (if last = newline then b ++ [last] else b ++ [last] ++ [newline]) := by
  unfold terminate
  rw [List.getLast?_concat]
  by_cases h : last = newline <;> simp [h]

theorem terminate_EncodeTransport (t : MessageTransport) :
    terminate (EncodeTransport t) = some (EncodeTransport t ++ [newline]) := by
  obtain ⟨body, hb⟩ := EncodeTransport_eq_concat t
  rw [hb, terminate_concat]
  simp [newline]

theorem writeLoop_all_written (T : NewerTypes) (marshal : MessageInterface → Bytes)
    (writeOk : Nat → Bool) (hw : ∀ k, writeOk k = true) (out : List MessageInterface)
    (k : Nat) (wire : Bytes) :
    writeLoop T marshal true writeOk out k wire =
      { wire := wire ++ (out.map (frameOf T marshal)).flatten, stop := WriteStop.drained } := by
  induction out generalizing k wire with
  | nil => simp [writeLoop]
  | cons command rest ih =>
    simp only [writeLoop, terminate_EncodeTransport, hw, List.map_cons, List.flatten_cons]
    simp only [Bool.true_eq_false, if_false]
    rw [ih]
    simp [frameOf, List.append_assoc]

/-- C11: for every payload, the serialized envelope is not empty (it ends with the
closing brace), so the check of the last byte never indexes an empty serialization; the
bytes handed to the connection are the envelope followed by a single new line, and they
end with exactly one new line.  In general the check leaves a serialization that ends
with a new line unchanged and appends a single new line to any other. -/
theorem frame_termination (T : NewerTypes) (marshal : MessageInterface → Bytes)
    (command : MessageInterface) :
    EncodeTransport (envelope T marshal command) ≠ [] ∧
    (EncodeTransport (envelope T marshal command)).getLast? = some 125 ∧
    terminate (EncodeTransport (envelope T marshal command)) =
      some (EncodeTransport (envelope T marshal command) ++ [newline]) ∧
    (∀ rest k wire,
      writeLoop T marshal true (fun _ => true) (command :: rest) k wire =
        writeLoop T marshal true (fun _ => true) rest (k + 1)
          (wire ++ (EncodeTransport (envelope T marshal command) ++ [newline]))) ∧
    (EncodeTransport (envelope T marshal command) ++ [newline]).getLast? = some newline ∧
    (EncodeTransport (envelope T marshal command) ++ [newline]).dropLast.getLast?
      ≠ some newline ∧
    (∀ (b : Bytes) (last : Nat), terminate (b ++ [last]) =
      some (if last = newline then b ++ [last] else b ++ [last] ++ [newline])) ∧
    terminate [] = none := by
  obtain ⟨body, hb⟩ := EncodeTransport_eq_concat (envelope T marshal command)
  refine ⟨?_, ?_, terminate_EncodeTransport _, ?_, ?_, ?_, terminate_concat, rfl⟩
  · rw [hb]
    simp
  · rw [hb]
    simp
  · intro rest k wire
    simp [writeLoop, terminate_EncodeTransport]
  · simp
  · rw [hb]
    simp [newline]

/-- C12: when the connection is set and every write succeeds, the bytes the writer loop
puts on the connection for the payloads sent on `Out` are the frame of the first, then
the frame of the second, and so on to the last, and the loop drains the queue. -/
theorem queue_ordering (T : NewerTypes) (marshal : MessageInterface → Bytes)
    (writeOk : Nat → Bool) (cl : Client)
    (hconn : cl.Conn ≠ none) (hw : ∀ k, writeOk k = true) :
    HandleWrite T marshal writeOk cl =
      { wire := (cl.Out.map (frameOf T marshal)).flatten, stop := WriteStop.drained } := by
  have hc : cl.Conn.isSome = true := by
    cases h : cl.Conn with
    | none => exact absurd h hconn
    | some k => rfl
  unfold HandleWrite
  rw [hc, writeLoop_all_written T marshal writeOk hw]
  simp

/-- C12 on the negotiation example: the draw offer's frame, then the rematch offer's. -/
theorem queue_ordering_witness :
    HandleWrite exampleTypes exampleMarshal (fun _ => true) afterNegotiation =
      { wire := (afterNegotiation.Out.map (frameOf exampleTypes exampleMarshal)).flatten,
        stop := WriteStop.drained } :=
  queue_ordering exampleTypes exampleMarshal (fun _ => true) afterNegotiation
    (by decide) (fun _ => rfl)

/-- C16: the envelope the writer loop builds carries the value of the payload's `Type`
method in `MsgType`; the `Type` values of the game update, move, connect and chat
payloads and of the transport envelope are the five different numbers 0, 1, 3, 4 and 2. -/
theorem envelope_tag_matches (T : NewerTypes) (marshal : MessageInterface → Bytes)
    (command : MessageInterface) (game : MessageGame) (move : MessageMove)
    (connect : MessageConnect) (chat : MessageGameChat) (transport : MessageTransport) :
    (envelope T marshal command).MsgType = command.Type T ∧
    (MessageInterface.Game game).Type T = game.Type ∧
    (MessageInterface.Move move).Type T = move.Type ∧
    (MessageInterface.Connect connect).Type T = connect.Type ∧
    (MessageInterface.GameChat chat).Type T = chat.Type ∧
    game.Type = 0 ∧ move.Type = 1 ∧ connect.Type = 3 ∧ chat.Type = 4 ∧ transport.Type = 2 ∧
    [game.Type, move.Type, connect.Type, chat.Type, transport.Type].Nodup := by
  refine ⟨rfl, rfl, rfl, rfl, rfl, rfl, rfl, rfl, rfl, rfl, ?_⟩
  have h : [game.Type, move.Type, connect.Type, chat.Type, transport.Type]
      = [(0 : Int), 1, 3, 4, 2] := rfl
  rw [h]
  decide

/-! ### The reader loop -/

theorem HandleAction_teardown (action : Action) (cl cl1 : Client)
    (hne : action ≠ Action.ActionExit) (h : HandleAction action cl = some cl1) :
    cl1.Conn = cl.Conn ∧ cl1.appStops = cl.appStops := by
  cases action
  case ActionExit => exact absurd rfl hne
  all_goals
    simp only [HandleAction, Option.some.injEq] at h
    subst h
    simp [Client.setLabels, Client.send]

theorem HandleReadDispatch_returns (GameFromFEN : String → Game) (m : Received)
    (cl : Client) :
    ∃ cl1, HandleReadDispatch GameFromFEN m cl = some cl1 ∧
      cl1.Conn = cl.Conn ∧ cl1.appStops = cl.appStops := by
  cases m with
  | GameAction message =>
    obtain ⟨a, detail⟩ := message
    cases a <;> exact ⟨_, rfl, rfl, rfl⟩
  | _ => exact ⟨_, rfl, rfl, rfl⟩

theorem readLoop_frame (GameFromFEN : String → Game) (m : Received) (rest : List Line)
    (cl : Client) :
    ∃ cl1, HandleReadDispatch GameFromFEN m cl = some cl1 ∧
      readLoop GameFromFEN (Line.frame m :: rest) cl = readLoop GameFromFEN rest cl1 := by
  obtain ⟨cl1, h, -, -⟩ := HandleReadDispatch_returns GameFromFEN m cl
  exact ⟨cl1, h, by simp [readLoop, h]⟩

theorem readLoop_teardown (GameFromFEN : String → Game) (lines : List Line) (cl : Client) :
    (readLoop GameFromFEN lines cl).1.Conn = cl.Conn ∧
    (readLoop GameFromFEN lines cl).1.appStops = cl.appStops := by
  induction lines generalizing cl with
  | nil => exact ⟨rfl, rfl⟩
  | cons line rest ih =>
    cases line with
    | badEnvelope => exact ⟨rfl, rfl⟩
    | badPayload t => exact ⟨rfl, rfl⟩
    | frame m =>
      obtain ⟨cl1, h, hc, ha⟩ := HandleReadDispatch_returns GameFromFEN m cl
      have hl : readLoop GameFromFEN (Line.frame m :: rest) cl
          = readLoop GameFromFEN rest cl1 := by simp [readLoop, h]
      rw [hl]
      exact ⟨(ih cl1).1.trans hc, (ih cl1).2.trans ha⟩

theorem HandleRead_of_conn (GameFromFEN : String → Game) (lines : List Line) (cl : Client)
    (k : Nat) (hk : cl.Conn = some k) :
    ∃ e, HandleRead GameFromFEN lines cl = some e ∧
      e.stop = (readLoop GameFromFEN lines cl).2 ∧
      e.client.appStops = cl.appStops + 1 ∧ e.client.Conn = some (k + 1) ∧
      e.client.optionBtn1 = (readLoop GameFromFEN lines cl).1.optionBtn1 ∧
      e.client.optionBtn2 = (readLoop GameFromFEN lines cl).1.optionBtn2 ∧
      e.client.Out = (readLoop GameFromFEN lines cl).1.Out := by
  obtain ⟨hc, ha⟩ := readLoop_teardown GameFromFEN lines cl
  have hd : (readLoop GameFromFEN lines cl).1.Disconnect =
      some { (readLoop GameFromFEN lines cl).1 with
        appStops := (readLoop GameFromFEN lines cl).1.appStops + 1, Conn := some (k + 1) } := by
    simp [Client.Disconnect, hc, hk]
  refine ⟨ReadEnd.mk { (readLoop GameFromFEN lines cl).1 with
      appStops := (readLoop GameFromFEN lines cl).1.appStops + 1, Conn := some (k + 1) }
    (readLoop GameFromFEN lines cl).2, ?_, rfl, ?_, rfl, rfl, rfl, rfl⟩
  · simp [HandleRead, hd]
  · simp [ha]

theorem HandleRead_of_panic (GameFromFEN : String → Game) (lines : List Line) (cl : Client)
    (h : readLoop GameFromFEN lines cl = (cl, ReadStop.panic)) :
    HandleRead GameFromFEN lines cl =
      cl.Disconnect.map (fun c => { client := c, stop := ReadStop.panic }) := by
  unfold HandleRead
  rw [h]
  cases cl.Disconnect <;> rfl

/-- C13 as stated fails: a frame whose payload does not decode is not dropped.  With
a game update whose payload fails to decode (an envelope of type `TypeMessageGame` whose
`Data` is a JSON string, say) followed by a Win notification, the loop
ends in a panic and the Win is never handled (the buttons stay Draw and Resign); with
the Win notification alone the loop reaches the end of the stream and the buttons show
the result. -/
theorem payload_decode_failure_not_dropped :
    (HandleRead exampleFromFEN [Line.badPayload Dispatched.Game, Line.frame winFrame]
        anchoredE2).map ReadEnd.observe =
      some (ReadStop.panic, Action.ActionDrawPrompt, Action.ActionResignPrompt, 1, some 1) ∧
    (HandleRead exampleFromFEN [Line.frame winFrame] anchoredE2).map ReadEnd.observe =
      some (ReadStop.endOfStream, Action.ActionNewGamePrompt, Action.ActionExit, 1, some 1) ∧
    ¬ (∀ (t : Dispatched) (rest : List Line) (cl : Client),
        readLoop exampleFromFEN (Line.badPayload t :: rest) cl =
          readLoop exampleFromFEN rest cl) := by
  refine ⟨rfl, rfl, ?_⟩
  intro hall
  have h := congrArg Prod.snd (hall Dispatched.Game [] anchoredE2)
  simp [readLoop] at h

/-- C13 amended: a decode failure is fatal for the envelope and for the payload alike.
When the envelope or the payload of a received frame fails to decode, the loop ends in
a panic with the session state as it was, no later frame is handled, and the deferred
`Disconnect` runs; a frame that decodes is dispatched and the loop goes on to the next. -/
theorem decode_failure_is_fatal (GameFromFEN : String → Game) (rest : List Line)
    (cl : Client) :
    readLoop GameFromFEN (Line.badEnvelope :: rest) cl = (cl, ReadStop.panic) ∧
    (∀ t, readLoop GameFromFEN (Line.badPayload t :: rest) cl = (cl, ReadStop.panic)) ∧
    HandleRead GameFromFEN (Line.badEnvelope :: rest) cl =
      cl.Disconnect.map (fun c => { client := c, stop := ReadStop.panic }) ∧
    (∀ t, HandleRead GameFromFEN (Line.badPayload t :: rest) cl =
      cl.Disconnect.map (fun c => { client := c, stop := ReadStop.panic })) ∧
    (∀ m, ∃ cl1, HandleReadDispatch GameFromFEN m cl = some cl1 ∧
      readLoop GameFromFEN (Line.frame m :: rest) cl = readLoop GameFromFEN rest cl1) :=
  ⟨rfl, fun _ => rfl, HandleRead_of_panic GameFromFEN _ cl rfl,
    fun _ => HandleRead_of_panic GameFromFEN _ cl rfl,
    fun m => readLoop_frame GameFromFEN m rest cl⟩

/-- C14: a frame whose message type is none of those the reader dispatches on changes
nothing in the client (game, role, labels, selection, highlights, outbound queue,
connection), and the loop goes on with the next line as if the frame had not come. -/
theorem unknown_type_discarded (GameFromFEN : String → Game) (msgType : Nat)
    (rest : List Line) (cl : Client) :
    HandleReadDispatch GameFromFEN (Received.unknown msgType) cl = some cl ∧
    readLoop GameFromFEN (Line.frame (Received.unknown msgType) :: rest) cl =
      readLoop GameFromFEN rest cl ∧
    HandleRead GameFromFEN (Line.frame (Received.unknown msgType) :: rest) cl =
      HandleRead GameFromFEN rest cl :=
  ⟨rfl, rfl, rfl⟩

/-- C15 as stated fails: when the Exit action calls `Disconnect` and the reader loop
then ends and runs its deferred `Disconnect`, the UI-stop call and the connection close
are each performed twice. -/
theorem teardown_runs_twice :
    ((HandleAction Action.ActionExit resultShownClient).bind
        (HandleRead exampleFromFEN [])).map ReadEnd.observe =
      some (ReadStop.endOfStream, Action.ActionNewGamePrompt, Action.ActionExit, 2, some 2) ∧
    resultShownClient.appStops = 0 ∧ resultShownClient.Conn = some 0 ∧
    ¬ (∀ (cl cl1 : Client) (lines : List Line) (e : ReadEnd),
        HandleAction Action.ActionExit cl = some cl1 →
        HandleRead exampleFromFEN lines cl1 = some e →
        e.client.appStops ≤ cl.appStops + 1) := by
  refine ⟨rfl, rfl, rfl, ?_⟩
  intro hall
  have h := hall resultShownClient _ [] _ rfl rfl
  simp [resultShownClient, readLoop] at h

/-- C15 amended: teardown is not guarded.  On a set connection every call of
`Disconnect` performs the UI-stop call and the connection close once more; a run in
which only the reader loop ends performs each once, and a run in which the Exit action
calls `Disconnect` and the reader loop then ends performs each exactly twice. -/
theorem teardown_per_call (GameFromFEN : String → Game) (lines : List Line) (cl : Client)
    (k : Nat) (hk : cl.Conn = some k) :
    cl.Disconnect = some { cl with appStops := cl.appStops + 1, Conn := some (k + 1) } ∧
    (∃ e, HandleRead GameFromFEN lines cl = some e ∧
      e.client.appStops = cl.appStops + 1 ∧ e.client.Conn = some (k + 1)) ∧
    (∃ cl1 e, HandleAction Action.ActionExit cl = some cl1 ∧
      HandleRead GameFromFEN lines cl1 = some e ∧
      e.client.appStops = cl.appStops + 2 ∧ e.client.Conn = some (k + 2)) := by
  have hd : cl.Disconnect =
      some { cl with appStops := cl.appStops + 1, Conn := some (k + 1) } := by
    simp [Client.Disconnect, hk]
  refine ⟨hd, ?_, ?_⟩
  · obtain ⟨e, he, -, ha, hc, -⟩ := HandleRead_of_conn GameFromFEN lines cl k hk
    exact ⟨e, he, ha, hc⟩
  · obtain ⟨e, he, -, ha, hc, -⟩ := HandleRead_of_conn GameFromFEN lines
      { cl with appStops := cl.appStops + 1, Conn := some (k + 1) } (k + 1) rfl
    exact ⟨_, e, hd, he, ha, hc⟩

/-- C15 amended, on the example client in `ResultShown` with a Win frame still to come. -/
theorem teardown_per_call_witness :
    ∃ cl1 e, HandleAction Action.ActionExit resultShownClient = some cl1 ∧
      HandleRead exampleFromFEN [Line.frame winFrame] cl1 = some e ∧
      e.client.appStops = resultShownClient.appStops + 2 ∧ e.client.Conn = some (0 + 2) :=
  (teardown_per_call exampleFromFEN [Line.frame winFrame] resultShownClient 0 rfl).2.2

/-! ### Highlights and button labels along runs -/

/-- C18: in every state reached from the new client by a sequence of board-cell
selections (also when connects, button clicks and received frames are interleaved), no
square is highlighted when the client is not selecting, and exactly the anchor square
`lastSelection` is highlighted when it is selecting. -/
theorem highlight_invariant (GameFromFEN : String → Game) (newGame : Game)
    (zeroRole : PlayerRole) (evs : List Event) (cl : Client)
    (hreach : run GameFromFEN evs (NewClient newGame zeroRole) = some cl) :
    (cl.selecting = false → cl.highlights = ∅) ∧
    (cl.selecting = true → cl.highlights = {cl.lastSelection}) :=
  run_inv GameFromFEN evs _ cl (NewClient_inv newGame zeroRole) hreach

/-- C18 on the example run: anchored at e2, exactly e2 is highlighted. -/
theorem highlight_invariant_witness :
    (anchoredE2.selecting = false → anchoredE2.highlights = ∅) ∧
    (anchoredE2.selecting = true → anchoredE2.highlights = {anchoredE2.lastSelection}) :=
  highlight_invariant exampleFromFEN openingGame (PlayerRole.other 0) exampleEvents
    anchoredE2 rfl

theorem LabelPair_of_eq (cl cl1 : Client) (h : LabelPair cl)
    (h1 : cl1.optionBtn1 = cl.optionBtn1) (h2 : cl1.optionBtn2 = cl.optionBtn2) :
    LabelPair cl1 := by
  unfold LabelPair at *
  rw [h1, h2]
  exact h

theorem HandleAction_labels (action : Action) (cl cl1 : Client) (hl : LabelPair cl)
    (h : HandleAction action cl = some cl1) : LabelPair cl1 := by
  cases action
  case ActionExit =>
    obtain ⟨-, -, -, -, h5, h6⟩ := Disconnect_frame cl cl1 h
    exact LabelPair_of_eq cl cl1 hl h5 h6
  all_goals
    simp only [HandleAction, Option.some.injEq] at h
    subst h
    first
      | exact LabelPair_of_eq cl _ hl rfl rfl
      | simp [LabelPair, Client.setLabels, Client.send]

theorem SetSelectedFunc_labels (row col : Int) (cl cl1 : Client)
    (h : SetSelectedFunc row col cl = some cl1) :
    cl1.optionBtn1 = cl.optionBtn1 ∧ cl1.optionBtn2 = cl.optionBtn2 := by
  unfold SetSelectedFunc at h
  cases hs : cl.selecting
  · simp only [hs, Bool.false_eq_true, if_false, Option.some.injEq] at h
    subst h
    exact ⟨rfl, rfl⟩
  · simp only [hs, if_true] at h
    split_ifs at h with h1
    · simp only [Option.some.injEq] at h
      subst h
      exact ⟨rfl, rfl⟩
    · cases hc : candidateMove cl.Game cl.lastSelection (posToSquare cl.Role row col) with
      | none => simp [hc] at h
      | some mv =>
        simp only [hc] at h
        split_ifs at h with h2
        · simp only [Option.some.injEq] at h
          subst h
          exact ⟨rfl, rfl⟩
        · simp only [Option.some.injEq] at h
          subst h
          exact ⟨rfl, rfl⟩

theorem optionBtn1Selected_labels (cl cl1 : Client) (hl : LabelPair cl)
    (h : optionBtn1Selected cl = some cl1) : LabelPair cl1 := by
  unfold optionBtn1Selected at h
  split at h
  any_goals exact HandleAction_labels _ cl cl1 hl h
  simp only [Option.some.injEq] at h
  subst h
  exact hl

theorem optionBtn2Selected_labels (cl cl1 : Client) (hl : LabelPair cl)
    (h : optionBtn2Selected cl = some cl1) : LabelPair cl1 := by
  unfold optionBtn2Selected at h
  split at h
  any_goals exact HandleAction_labels _ cl cl1 hl h
  simp only [Option.some.injEq] at h
  subst h
  exact hl

theorem HandleReadDispatch_labels (GameFromFEN : String → Game) (m : Received)
    (cl cl1 : Client) (hl : LabelPair cl)
    (h : HandleReadDispatch GameFromFEN m cl = some cl1) : LabelPair cl1 := by
  cases m with
  | Game message =>
    simp only [HandleReadDispatch, Option.some.injEq] at h
    subst h
    simp [LabelPair, Client.setLabels]
  | GameAction message =>
    obtain ⟨a, detail⟩ := message
    cases a
    all_goals
      simp only [HandleReadDispatch, HandleAction, Option.some.injEq] at h
      subst h
      first
        | exact LabelPair_of_eq cl _ hl rfl rfl
        | simp [LabelPair, Client.setLabels]
  | _ =>
    simp only [HandleReadDispatch, Option.some.injEq] at h
    subst h
    exact LabelPair_of_eq cl _ hl rfl rfl

theorem step_labels (GameFromFEN : String → Game) (e : Event) (cl cl1 : Client)
    (hl : LabelPair cl) (h : step GameFromFEN e cl = some cl1) : LabelPair cl1 := by
  cases e with
  | connect dialed =>
    simp only [step, Option.some.injEq] at h
    subst h
    unfold Client.Connect
    split
    · exact LabelPair_of_eq cl _ hl rfl rfl
    · exact hl
  | select row col =>
    obtain ⟨h1, h2⟩ := SetSelectedFunc_labels row col cl cl1 h
    exact LabelPair_of_eq cl cl1 hl h1 h2
  | button1 => exact optionBtn1Selected_labels cl cl1 hl h
  | button2 => exact optionBtn2Selected_labels cl cl1 hl h
  | receive m => exact HandleReadDispatch_labels GameFromFEN m cl cl1 hl h

theorem runCalls_labels (GameFromFEN : String → Game) (calls : List Call) (cl cl1 : Client)
    (hl : LabelPair cl) (h : runCalls GameFromFEN calls cl = some cl1) : LabelPair cl1 := by
  induction calls generalizing cl with
  | nil =>
    simp only [runCalls, Option.some.injEq] at h
    subst h
    exact hl
  | cons c rest ih =>
    cases c with
    | action a =>
      simp only [runCalls] at h
      cases hs : HandleAction a cl with
      | none => simp [hs] at h
      | some c1 =>
        simp only [hs] at h
        exact ih c1 (HandleAction_labels a cl c1 hl hs) h
    | event e =>
      simp only [runCalls] at h
      cases hs : step GameFromFEN e cl with
      | none => simp [hs] at h
      | some c1 =>
        simp only [hs] at h
        exact ih c1 (step_labels GameFromFEN e cl c1 hl hs) h

theorem LabelPair_handled (cl : Client) (hl : LabelPair cl) :
    handledByBtn1 cl.optionBtn1 ∧ handledByBtn2 cl.optionBtn2 ∧
    optionBtn1Selected cl = HandleAction cl.optionBtn1 cl ∧
    optionBtn2Selected cl = HandleAction cl.optionBtn2 cl := by
  unfold LabelPair at hl
  rcases hl with ⟨h1, h2⟩ | ⟨h1, h2⟩ | ⟨h1, h2⟩ | ⟨h1, h2⟩ | ⟨h1, h2⟩ <;>
    simp [handledByBtn1, handledByBtn2, optionBtn1Selected, optionBtn2Selected, h1, h2]

/-- C19: in every state reached from the labels Draw and Resign by a sequence of
`HandleAction` calls and received game updates (and of any other events), the two
labels are one of the five pairs, so the label of the first button has a case in the
first button's click dispatch and the label of the second button one in the second's:
each click calls `HandleAction` with the label shown. -/
theorem no_dead_button_state (GameFromFEN : String → Game) (calls : List Call)
    (cl0 cl : Client)
    (h1 : cl0.optionBtn1 = Action.ActionDrawPrompt)
    (h2 : cl0.optionBtn2 = Action.ActionResignPrompt)
    (hreach : runCalls GameFromFEN calls cl0 = some cl) :
    LabelPair cl ∧
    handledByBtn1 cl.optionBtn1 ∧ handledByBtn2 cl.optionBtn2 ∧
    optionBtn1Selected cl = HandleAction cl.optionBtn1 cl ∧
    optionBtn2Selected cl = HandleAction cl.optionBtn2 cl := by
  have hl : LabelPair cl :=
    runCalls_labels GameFromFEN calls cl0 cl (Or.inl ⟨h1, h2⟩) hreach
  exact ⟨hl, LabelPair_handled cl hl⟩

/-- C19 on the negotiation example: the run ends with the new-game prompt and Exit. -/
theorem no_dead_button_state_witness :
    LabelPair afterNegotiationCalls ∧
    handledByBtn1 afterNegotiationCalls.optionBtn1 ∧
    handledByBtn2 afterNegotiationCalls.optionBtn2 ∧
    optionBtn1Selected afterNegotiationCalls =
      HandleAction afterNegotiationCalls.optionBtn1 afterNegotiationCalls ∧
    optionBtn2Selected afterNegotiationCalls =
      HandleAction afterNegotiationCalls.optionBtn2 afterNegotiationCalls :=
  no_dead_button_state exampleFromFEN negotiationCalls
    (NewClient openingGame (PlayerRole.other 0)) afterNegotiationCalls rfl rfl rfl

/-! ### Rank labels -/

theorem rank_of_posToSquare (Role : PlayerRole) (r c : Int)
    (h0 : 0 ≤ r) (h7 : r ≤ 7) (h1 : 1 ≤ c) (h8 : c ≤ 8) :
    Square.Rank (posToSquare Role r c) = if Role ≠ PlayerRole.Black then 7 - r else r := by
  by_cases hb : Role = PlayerRole.Black
  · subst hb
    simp only [ne_eq, not_true_eq_false, if_false]
    interval_cases r <;> interval_cases c <;> decide
  · have hp : posToSquare Role r c = posToSquare PlayerRole.White r c := by
      simp [posToSquare, hb]
    rw [hp]
    simp only [ne_eq, hb, not_false_eq_true, if_true]
    interval_cases r <;> interval_cases c <;> decide

theorem rank_label_of_row (cl : Client) (r : Int) (h0 : 0 ≤ r) (h7 : r ≤ 7) :
    renderCell cl r 0 =
      some (Cell.rank (if cl.Role = PlayerRole.White then 7 - r else r)) := by
  have hr : r ≠ numrows := by
    unfold numrows
    omega
  have hw : wrapInt8 (if cl.Role = PlayerRole.White then numrows - r - 1 else r)
      = if cl.Role = PlayerRole.White then 7 - r else r := by
    by_cases hrole : cl.Role = PlayerRole.White
    · simp only [hrole, if_true, numrows]
      rw [wrapInt8_of_range _ (by omega) (by omega)]
      omega
    · simp only [hrole, if_false]
      exact wrapInt8_of_range _ (by omega) (by omega)
  simp only [renderCell, hr, ne_eq, not_false_eq_true, and_self, if_true, hw]

/-- The rank labels and the squares drawn agree for the White and the Black role, and
disagree in every row for any other role. -/
theorem rank_label_agreement (cl : Client) (r c : Int)
    (h0 : 0 ≤ r) (h7 : r ≤ 7) (h1 : 1 ≤ c) (h8 : c ≤ 8) :
    (cl.Role = PlayerRole.White ∨ cl.Role = PlayerRole.Black →
      renderCell cl r 0 = some (Cell.rank (Square.Rank (posToSquare cl.Role r c)))) ∧
    (cl.Role ≠ PlayerRole.White → cl.Role ≠ PlayerRole.Black →
      renderCell cl r 0 = some (Cell.rank r) ∧
      Square.Rank (posToSquare cl.Role r c) = 7 - r ∧
      r ≠ 7 - r) := by
  have hl := rank_label_of_row cl r h0 h7
  have hs := rank_of_posToSquare cl.Role r c h0 h7 h1 h8
  constructor
  · intro h
    rcases h with h | h
    · rw [hl, hs, h]
      simp
    · rw [hl, hs, h]
      simp
  · intro hw hb
    refine ⟨?_, ?_, by omega⟩
    · rw [hl]
      simp [hw]
    · rw [hs]
      simp [hb]

/-- C20 fails for a role that is neither White nor Black: in the new client with such a
role, the gutter of row 0 shows rank index 0 (the digit 1), while the cell next to it
draws the piece on square 56 (a8), which `posToSquare` gives for row 0 and column 1 and
whose rank index is 7 (the digit 8). -/
theorem rank_label_disagrees_for_other_role :
    renderCell (NewClient openingGame (PlayerRole.other 0)) 0 0 = some (Cell.rank 0) ∧
    Rank.String 0 = some "1" ∧
    renderCell (NewClient openingGame (PlayerRole.other 0)) 0 1 =
      some (Cell.piece 56 PieceType.Rook) ∧
    posToSquare (PlayerRole.other 0) 0 1 = 56 ∧
    Square.Rank 56 = 7 ∧
    Rank.String 7 = some "8" := by
  refine ⟨by decide, by decide, by decide, by decide, by decide, by decide⟩

end Chessterm
